import Mathlib

/-!
# Verification of the terraform-provider-tencentcloud CRUD layer

A shallow embedding, in Lean 4, of the decision logic of the
terraform-provider-tencentcloud resources referenced by the spec:

* `resource_tc_route_table_entry.go` (create / read / delete of a VPC route
  table entry, composite-ID round-trip),
* the CBS storage resource (update with the `EXPANDING` poll loop, delete),
* the Redis instance resource (create poll, read, update) together with
  `service_tencentcloud_redis.go` (`CheckRedisCreateOk`, `DescribeInstances`
  pagination),
* the key pair resource (public-key normalisation, delete),
* the VPN gateway delete poll loop,
* the provider credential schema.

Go strings are modelled as `String` where only whole-value equality matters
and as `List Char` where the code inspects characters (`strings.Split`,
`strings.Join`, `strings.TrimSpace`, `strconv.ParseUint`, `fmt.Sprintf`).
Machine integers that the code never overflows are modelled as `Nat`/`Int`.
Fallible remote calls are modelled as `Except GoErr α`; a remote endpoint
that is polled repeatedly is a function `Nat → Except GoErr α` giving the
response of each successive attempt.  The Terraform SDK's
`resource.Retry(timeout, f)` helper (external to the repository) is modelled
by `runRetry` below, with the timeout abstracted to a fuel bound.
-/

/-- An error value as the Go code sees it: either a vendor-SDK error carrying
an error code (`*errors.TceCloudSDKError`) or any other `error`. -/
inductive GoErr where
  | sdkErr (code : String) (msg : String)
  | otherErr (msg : String)
deriving DecidableEq, Repr

/-- `true` exactly when the Go type switch `err.(*errors.TceCloudSDKError)`
succeeds. -/
def GoErr.isSdk : GoErr → Bool
  | .sdkErr _ _ => true
  | .otherErr _ => false

/-- The code of an SDK error (the `Code` field); `""` for non-SDK errors. -/
def GoErr.code : GoErr → String
  | .sdkErr c _ => c
  | .otherErr _ => ""

/-- The value a Go callback passed to `resource.Retry` returns:
`nil` (here `done`), `resource.RetryableError(e)` or
`resource.NonRetryableError(e)`. -/
inductive RetryOutcome where
  | done
  | retryable (e : GoErr)
  | nonRetryable (e : GoErr)
deriving DecidableEq, Repr

/-- The Terraform SDK helper `resource.Retry(timeout, f)`: attempt `i` runs
the callback against the `i`-th remote response; `done` stops with success
(`none`), `nonRetryable e` stops with `some e`, `retryable e` retries while
fuel remains and surfaces `some e` when the timeout (fuel) is exhausted. -/
def runRetry (step : Nat → RetryOutcome) : Nat → Nat → Option GoErr
  | fuel, i =>
    match step i with
    | .done => none
    | .nonRetryable e => some e
    | .retryable e =>
      match fuel with
      | 0 => some e
      | fuel + 1 => runRetry step fuel (i + 1)

/-- If `runRetry` succeeds, some attempt returned `done`. -/
theorem runRetry_eq_none (step : Nat → RetryOutcome) (fuel i : Nat)
    (h : runRetry step fuel i = none) : ∃ j, step j = .done := by
  induction fuel generalizing i with
  | zero =>
    unfold runRetry at h
    rcases hs : step i with _ | e | e <;> simp [hs] at h
    exact ⟨i, hs⟩
  | succ fuel ih =>
    unfold runRetry at h
    rcases hs : step i with _ | e | e <;> simp [hs] at h
    · exact ⟨i, hs⟩
    · exact ih (i + 1) h

/-- If every attempt is `retryable`, `runRetry` surfaces an error. -/
theorem runRetry_all_retryable (step : Nat → RetryOutcome) (fuel i : Nat)
    (h : ∀ j, ∃ e, step j = .retryable e) : (runRetry step fuel i).isSome := by
  induction fuel generalizing i with
  | zero =>
    obtain ⟨e, he⟩ := h i
    unfold runRetry
    simp [he]
  | succ fuel ih =>
    obtain ⟨e, he⟩ := h i
    unfold runRetry
    simp [he]
    exact ih (i + 1)

/-! ## Error-code and status constants

The constant *names* below appear in the provided sources; their *values*
are defined in extension files of the repository that are not among the
provided sources, so the values here are nominal.  Every theorem uses only
the identity (and mutual distinctness) of these values, never their text. -/

/-- `GATE_WAY_TYPE_EIP`: the route-entry next-hop type that forces
`next_hub = "0"` (the schema documents the literal value `EIP`). -/
def GATE_WAY_TYPE_EIP : String := "EIP"

/-- `VPCNotFound`: the vendor error code for a missing VPC object
(value defined outside the provided sources; nominal here). -/
def VPCNotFound : String := "ResourceNotFound"

/-- `CVM_NOT_FOUND_ERROR`: the vendor error code for a missing CVM instance
(value defined outside the provided sources; nominal here). -/
def CVM_NOT_FOUND_ERROR : String := "InvalidInstanceId.NotFound"

/-- `InternalError`: the vendor's internal-error code
(value defined outside the provided sources; nominal here). -/
def InternalError : String := "InternalError"

/-- `CBS_STORAGE_STATUS_EXPANDING`: the CBS disk state while a resize is in
progress (the spec names the literal state `EXPANDING`). -/
def CBS_STORAGE_STATUS_EXPANDING : String := "EXPANDING"

/-- `REDIS_STATUS_INIT` (numeric Redis instance status; values defined
outside the provided sources, only distinctness is used). -/
def REDIS_STATUS_INIT : Int := 0

/-- `REDIS_STATUS_PROCESSING`. -/
def REDIS_STATUS_PROCESSING : Int := 1

/-- `REDIS_STATUS_ONLINE`. -/
def REDIS_STATUS_ONLINE : Int := 2

/-- `REDIS_STATUS_ISOLATE`. -/
def REDIS_STATUS_ISOLATE : Int := -2

/-- `REDIS_STATUS_TODELETE`. -/
def REDIS_STATUS_TODELETE : Int := -3

/-- Modelled from the spec: the default recoverable-code set of the
repository's generic classifier `retryError` (the helper is not among the
provided sources).  The spec names no default recoverable code, and the call
sites in the sources pass the codes they need retried explicitly (e.g. the
CBS read passes `InternalError`), so the default set is modelled as empty. -/
def defaultRetryableCodes : List String := []

/-- Modelled from the spec: the generic classifier `retryError(err, codes...)`
of the repository's retry helper is not among the provided sources.  Per the
spec ("retries on a recoverable error classification (`retryError`)",
"Transient failures are retried via the generic retry helper; non-retryable
failures are returned to Terraform core"), it inspects the error code and
classifies the error as retryable exactly when the code is one it deems
recoverable — the default set above together with the additional codes the
call site passes explicitly — and as non-retryable otherwise. -/
def retryError (e : GoErr) (additional : List String) : RetryOutcome :=
  if e.isSdk && (defaultRetryableCodes.contains e.code
      || additional.contains e.code) then
    .retryable e
  else
    .nonRetryable e

/-! ## Character-level Go string primitives

Used by the route-table-entry composite ID (`fmt.Sprintf("%d.%s", ...)`,
`strings.Split(id, ".")`, `strconv.ParseUint`) and the key-pair public-key
normalisation (`strings.Split(v, " ")`, `strings.Join`,
`strings.TrimSpace`). -/

/-- Go's `strings.Split(s, sep)` for a single-character separator: splits
around every occurrence of `sep`; the result is never empty. -/
def goSplit (sep : Char) : List Char → List (List Char)
  | [] => [[]]
  | c :: rest =>
    match goSplit sep rest with
    | [] => [[]]
    | p :: ps => if c = sep then [] :: p :: ps else (c :: p) :: ps

/-- Go's `strings.Join(parts, sep)` for a single-character separator. -/
def goJoin (sep : Char) : List (List Char) → List Char
  | [] => []
  | [p] => p
  | p :: ps => p ++ sep :: goJoin sep ps

/-- Whitespace as Go's `unicode.IsSpace` sees it (ASCII fragment; the
normalisation theorems do not depend on the non-ASCII cases). -/
def goIsSpace (c : Char) : Bool :=
  c = ' ' || c = '\t' || c = '\n' || c = '\x0b' || c = '\x0c' || c = '\r'

/-- Go's `strings.TrimSpace`: drop leading and trailing whitespace. -/
def goTrimSpace (s : List Char) : List Char :=
  ((s.dropWhile goIsSpace).reverse.dropWhile goIsSpace).reverse

/-- The character of a single decimal digit (`0 ≤ n ≤ 9`). -/
def decDigit (n : Nat) : Char :=
  match n with
  | 0 => '0' | 1 => '1' | 2 => '2' | 3 => '3' | 4 => '4'
  | 5 => '5' | 6 => '6' | 7 => '7' | 8 => '8' | _ => '9'

/-- The decimal digits of `n`, most significant first — Go's
`fmt.Sprintf("%d", n)` for an unsigned integer. -/
def natToChars (n : Nat) : List Char :=
  if _h : n < 10 then [decDigit n]
  else natToChars (n / 10) ++ [decDigit (n % 10)]
decreasing_by exact Nat.div_lt_self (by omega) (by omega)

/-- One step of decimal parsing: `acc * 10 + digit`, failing on a
non-digit character. -/
def parseUintAux : List Char → Nat → Option Nat
  | [], acc => some acc
  | c :: cs, acc =>
    if 48 ≤ c.toNat ∧ c.toNat ≤ 57 then
      parseUintAux cs (acc * 10 + (c.toNat - 48))
    else
      none

/-- Go's `strconv.ParseUint(s, 10, 64)`: fails on the empty string, on any
non-digit character, and on values that overflow 64 bits. -/
def goParseUint64 (s : List Char) : Option Nat :=
  if s = [] then none
  else
    match parseUintAux s 0 with
    | none => none
    | some n => if n < 2 ^ 64 then some n else none

/-- A poll step that can also produce a value on success (used for the
callbacks that set resource state from inside the loop): `ok` is the
callback returning `nil` with the given effect on local state, `retry` is
`resource.RetryableError`, `abort` is `resource.NonRetryableError`. -/
inductive StepResult (α : Type) where
  | ok (a : α)
  | retry (e : GoErr)
  | abort (e : GoErr)
deriving DecidableEq, Repr

/-- `resource.Retry` for a state-producing callback (see `runRetry`). -/
def runPoll {α : Type} (step : Nat → StepResult α) : Nat → Nat → Except GoErr α
  | fuel, i =>
    match step i with
    | .ok a => .ok a
    | .abort e => .error e
    | .retry e =>
      match fuel with
      | 0 => .error e
      | fuel + 1 => runPoll step fuel (i + 1)

/-- If `runPoll` succeeds, some attempt returned `ok` with that value. -/
theorem runPoll_eq_ok {α : Type} (step : Nat → StepResult α) (fuel i : Nat)
    (a : α) (h : runPoll step fuel i = .ok a) : ∃ j, step j = .ok a := by
  induction fuel generalizing i with
  | zero =>
    unfold runPoll at h
    rcases hs : step i with b | e | e <;> simp [hs] at h
    exact ⟨i, by rw [hs, h]⟩
  | succ fuel ih =>
    unfold runPoll at h
    rcases hs : step i with b | e | e <;> simp [hs] at h
    · exact ⟨i, by rw [hs, h]⟩
    · exact ih (i + 1) h

/-! ## `resource_tc_route_table_entry.go` -/

/-- The configuration fields of a `tencentcloud_route_table_entry` resource
as `resourceTencentCloudVpcRouteEntryCreate` reads them (`d.GetOk` yields
`""` for an unset field).  The route-table ID is kept at character level
because it is embedded in the composite resource ID. -/
structure RouteEntryInput where
  description : String
  routeTableId : List Char
  destinationCidrBlock : String
  nextType : String
  nextHub : String
deriving DecidableEq, Repr

/-- `resourceTencentCloudVpcRouteEntryCreate`: validates the fields, then
calls `service.CreateRoutes` (its response is the `createRoutes` argument)
and on success sets the resource ID to `fmt.Sprintf("%d.%s", entryId,
routeTableId)`.  Returns the result (`ok` carries the ID passed to
`d.SetId`) and the number of remote calls made. -/
def resourceTencentCloudVpcRouteEntryCreate (inp : RouteEntryInput)
    (createRoutes : Except GoErr Nat) : Except GoErr (List Char) × Nat :=
  if inp.routeTableId = [] ∨ inp.destinationCidrBlock = "" ∨
      inp.nextType = "" ∨ inp.nextHub = "" then
    (.error (.otherErr "some needed fields is empty string"), 0)
  else if inp.nextType = GATE_WAY_TYPE_EIP ∧ inp.nextHub ≠ "0" then
    (.error (.otherErr "if next_type is EIP, next_hub can only be 0"), 0)
  else
    match createRoutes with
    | .error e => (.error e, 1)
    | .ok entryId => (.ok (natToChars entryId ++ '.' :: inp.routeTableId), 1)

/-- One route-table entry as `DescribeRouteTable` reports it
(the `entryInfos` elements). -/
structure RouteTableEntryInfo where
  routeEntryId : Nat
  description : String
  destinationCidr : String
  nextType : String
  nextBub : String
deriving DecidableEq, Repr

/-- What the Read callback leaves behind on success: either the resource ID
was cleared (`d.SetId("")`) or the entry was found and its fields stored. -/
inductive RouteEntryReadState where
  | cleared
  | found (v : RouteTableEntryInfo)
deriving DecidableEq, Repr

/-- The retry callback inside `resourceTencentCloudVpcRouteEntryRead`:
describes the route table (`describe i` is the attempt-`i` response,
a pair of the table count `has` and the entry list), classifies transport
errors through `retryError`, clears the ID when the table is gone or the
entry is absent, and stores the first entry whose
`fmt.Sprintf("%d", routeEntryId)` equals the first ID component. -/
def routeEntryReadStep (items0 : List Char)
    (describe : Nat → Except GoErr (Nat × List RouteTableEntryInfo))
    (i : Nat) : StepResult RouteEntryReadState :=
  match describe i with
  | .error e =>
    match retryError e [] with
    | .retryable e' => .retry e'
    | _ => .abort e
  | .ok (has, entryInfos) =>
    if has = 0 then .ok .cleared
    else if has ≠ 1 then
      .abort (.otherErr "one routeTable id get several routeTable infos")
    else
      match entryInfos.find? (fun v => natToChars v.routeEntryId == items0) with
      | some v => .ok (.found v)
      | none => .ok .cleared

/-- `resourceTencentCloudVpcRouteEntryRead`: splits the resource ID on `"."`;
anything but exactly two components is rejected before any remote call;
otherwise the retry loop polls `DescribeRouteTable` on the second component.
`describe` maps the queried route-table ID and the attempt index to the
response; the boolean reports whether any remote call was made. -/
def resourceTencentCloudVpcRouteEntryRead (id : List Char)
    (describe : List Char → Nat → Except GoErr (Nat × List RouteTableEntryInfo))
    (fuel : Nat) : Except GoErr RouteEntryReadState × Bool :=
  match goSplit '.' id with
  | [items0, items1] =>
    (runPoll (routeEntryReadStep items0 (describe items1)) fuel 0, true)
  | _ =>
    (.error (.otherErr "entry id be destroyed, we can not get route table id"),
      false)

/-- The retry callback inside `resourceTencentCloudVpcRouteEntryDelete`:
`deleteRoutes i` is the attempt-`i` outcome of `service.DeleteRoutes`
(`none` = success).  A failure whose SDK code is `VPCNotFound` is treated as
success; every other failure is `resource.RetryableError`. -/
def routeEntryDeleteStep (deleteRoutes : Nat → Option GoErr)
    (i : Nat) : RetryOutcome :=
  match deleteRoutes i with
  | none => .done
  | some e =>
    if e.isSdk ∧ e.code = VPCNotFound then .done else .retryable e

/-- `resourceTencentCloudVpcRouteEntryDelete`: splits the resource ID on
`"."` (two components required), parses the first with
`strconv.ParseUint(_, 10, 64)`, then retries `DeleteRoutes`.  `deleteRoutes`
maps the queried route-table ID, the parsed entry ID and the attempt index
to the outcome; the boolean reports whether any remote call was made. -/
def resourceTencentCloudVpcRouteEntryDelete (id : List Char)
    (deleteRoutes : List Char → Nat → Nat → Option GoErr)
    (fuel : Nat) : Except GoErr Unit × Bool :=
  match goSplit '.' id with
  | [items0, items1] =>
    (match goParseUint64 items0 with
    | none =>
      (.error (.otherErr "entry id be destroyed, we can not get route entry id"),
        false)
    | some entryId =>
      (match runRetry
          (routeEntryDeleteStep (deleteRoutes items1 entryId)) fuel 0 with
        | some e => .error e
        | none => .ok (), true))
  | _ =>
    (.error (.otherErr "entry id be destroyed, we can not get route table id"),
      false)

/-! ## Lemmas about the Go string primitives -/

theorem goSplit_ne_nil (sep : Char) (s : List Char) : goSplit sep s ≠ [] := by
  cases s with
  | nil => simp [goSplit]
  | cons c rest =>
    unfold goSplit
    rcases h : goSplit sep rest with _ | ⟨p, ps⟩
    · simp
    · by_cases hc : c = sep <;> simp [hc]

theorem goSplit_no_sep (sep : Char) (s : List Char) (h : sep ∉ s) :
    goSplit sep s = [s] := by
  induction s with
  | nil => rfl
  | cons c rest ih =>
    simp only [List.mem_cons, not_or] at h
    unfold goSplit
    rw [ih h.2]
    have hc : ¬(c = sep) := fun hcc => h.1 hcc.symm
    simp [hc]

theorem goSplit_append_sep (sep : Char) (a b : List Char) (ha : sep ∉ a) :
    goSplit sep (a ++ sep :: b) = a :: goSplit sep b := by
  induction a with
  | nil =>
    simp only [List.nil_append]
    rcases h : goSplit sep b with _ | ⟨p, ps⟩
    · exact absurd h (goSplit_ne_nil sep b)
    · conv_lhs => unfold goSplit
      rw [h]
      simp
  | cons c a' ih =>
    simp only [List.mem_cons, not_or] at ha
    simp only [List.cons_append]
    conv_lhs => unfold goSplit
    rw [ih ha.2]
    have hc : ¬(c = sep) := fun hcc => ha.1 hcc.symm
    simp [hc]

theorem decDigit_toNat (d : Nat) (h : d < 10) : (decDigit d).toNat = 48 + d := by
  interval_cases d <;> decide

theorem natToChars_digits (n : Nat) :
    ∀ c ∈ natToChars n, 48 ≤ c.toNat ∧ c.toNat ≤ 57 := by
  induction n using Nat.strong_induction_on with
  | _ n ih =>
    unfold natToChars
    by_cases h : n < 10
    · simp only [h, dite_true, List.mem_singleton]
      intro c hc
      subst hc
      have := decDigit_toNat n h
      omega
    · simp only [h, dite_false, List.mem_append, List.mem_singleton]
      intro c hc
      rcases hc with hc | hc
      · exact ih (n / 10) (Nat.div_lt_self (by omega) (by omega)) c hc
      · subst hc
        have := decDigit_toNat (n % 10) (Nat.mod_lt _ (by omega))
        omega

theorem dot_not_mem_natToChars (n : Nat) : '.' ∉ natToChars n := by
  intro hmem
  have := natToChars_digits n '.' hmem
  revert this
  decide

theorem natToChars_ne_nil (n : Nat) : natToChars n ≠ [] := by
  unfold natToChars
  by_cases h : n < 10 <;> simp [h]

theorem parseUintAux_append (a b : List Char) (acc : Nat) :
    parseUintAux (a ++ b) acc =
      (parseUintAux a acc).bind (fun m => parseUintAux b m) := by
  induction a generalizing acc with
  | nil => simp [parseUintAux]
  | cons c a' ih =>
    simp only [List.cons_append, parseUintAux]
    by_cases hc : 48 ≤ c.toNat ∧ c.toNat ≤ 57
    · simp only [hc, and_self, if_true]
      exact ih _
    · simp [hc]

theorem parseUintAux_natToChars (n acc : Nat) :
    parseUintAux (natToChars n) acc =
      some (acc * 10 ^ (natToChars n).length + n) := by
  induction n using Nat.strong_induction_on generalizing acc with
  | _ n ih =>
    by_cases h : n < 10
    · have hn : natToChars n = [decDigit n] := by unfold natToChars; simp [h]
      rw [hn]
      have hd := decDigit_toNat n h
      have hrange : 48 ≤ (decDigit n).toNat ∧ (decDigit n).toNat ≤ 57 := by
        omega
      simp only [parseUintAux, hrange, and_self, if_true,
        List.length_singleton, pow_one]
      refine congrArg some ?_
      omega
    · have hn : natToChars n = natToChars (n / 10) ++ [decDigit (n % 10)] := by
        conv_lhs => unfold natToChars
        simp [h]
      rw [hn, parseUintAux_append,
        ih (n / 10) (Nat.div_lt_self (by omega) (by omega)) acc]
      have hd := decDigit_toNat (n % 10) (Nat.mod_lt _ (by omega))
      have hrange : 48 ≤ (decDigit (n % 10)).toNat ∧
          (decDigit (n % 10)).toNat ≤ 57 := by omega
      simp only [Option.bind_some, parseUintAux, hrange, and_self, if_true,
        List.length_append, List.length_singleton]
      refine congrArg some ?_
      have hpow : acc * 10 ^ ((natToChars (n / 10)).length + 1) =
          (acc * 10 ^ (natToChars (n / 10)).length) * 10 := by ring
      rw [hpow]
      omega

theorem goParseUint64_natToChars (n : Nat) (h : n < 2 ^ 64) :
    goParseUint64 (natToChars n) = some n := by
  have hp := parseUintAux_natToChars n 0
  simp only [Nat.zero_mul, Nat.zero_add] at hp
  have h64 : n < 18446744073709551616 := by omega
  simp [goParseUint64, natToChars_ne_nil, hp, h64]

/-- **C9** — Route table entry IDs round-trip: for every entry ID (a value of
Go type `uint64`) and every route-table ID containing no `'.'`, the composite
ID `fmt.Sprintf("%d.%s", entryId, routeTableId)` produced by Create splits on
`"."` into exactly two parts, the first parsing back (via
`strconv.ParseUint(_, 10, 64)`) to the original entry ID and the second equal
to the original route-table ID, so Read and Delete accept every ID Create
produces (both reach the remote call); and for an ID that does not split into
exactly two parts, Read and Delete return an error without any remote call. -/
theorem tc_route_entry_id_roundtrip (entryId : Nat) (rt badId : List Char)
    (describe : List Char → Nat → Except GoErr (Nat × List RouteTableEntryInfo))
    (deleteRoutes : List Char → Nat → Nat → Option GoErr) (fuel : Nat)
    (hid : entryId < 2 ^ 64) (hrt : '.' ∉ rt)
    (hbad : (goSplit '.' badId).length ≠ 2) :
    goSplit '.' (natToChars entryId ++ '.' :: rt) = [natToChars entryId, rt]
    ∧ goParseUint64 (natToChars entryId) = some entryId
    ∧ (resourceTencentCloudVpcRouteEntryRead
        (natToChars entryId ++ '.' :: rt) describe fuel).2 = true
    ∧ (resourceTencentCloudVpcRouteEntryDelete
        (natToChars entryId ++ '.' :: rt) deleteRoutes fuel).2 = true
    ∧ resourceTencentCloudVpcRouteEntryRead badId describe fuel =
        (.error (.otherErr "entry id be destroyed, we can not get route table id"),
          false)
    ∧ resourceTencentCloudVpcRouteEntryDelete badId deleteRoutes fuel =
        (.error (.otherErr "entry id be destroyed, we can not get route table id"),
          false) := by
  have hsplit : goSplit '.' (natToChars entryId ++ '.' :: rt) =
      [natToChars entryId, rt] := by
    rw [goSplit_append_sep '.' _ rt (dot_not_mem_natToChars entryId),
      goSplit_no_sep '.' rt hrt]
  refine ⟨hsplit, goParseUint64_natToChars entryId hid, ?_, ?_, ?_, ?_⟩
  · simp only [resourceTencentCloudVpcRouteEntryRead, hsplit]
  · simp only [resourceTencentCloudVpcRouteEntryDelete, hsplit,
      goParseUint64_natToChars entryId hid]
  · rcases hb : goSplit '.' badId with _ | ⟨x, _ | ⟨y, _ | ⟨z, l⟩⟩⟩
    · simp [resourceTencentCloudVpcRouteEntryRead, hb]
    · simp [resourceTencentCloudVpcRouteEntryRead, hb]
    · rw [hb] at hbad; simp at hbad
    · simp [resourceTencentCloudVpcRouteEntryRead, hb]
  · rcases hb : goSplit '.' badId with _ | ⟨x, _ | ⟨y, _ | ⟨z, l⟩⟩⟩
    · simp [resourceTencentCloudVpcRouteEntryDelete, hb]
    · simp [resourceTencentCloudVpcRouteEntryDelete, hb]
    · rw [hb] at hbad; simp at hbad
    · simp [resourceTencentCloudVpcRouteEntryDelete, hb]

/-- Witness for **C9** at `entryId = 3`, `routeTableId = "rtb"`,
`badId = "abc"`, concrete remote responses and fuel `2`. -/
theorem tc_route_entry_id_roundtrip_witness :
    ((3 : Nat) < 2 ^ 64 ∧ '.' ∉ (['r', 't', 'b'] : List Char)
      ∧ (goSplit '.' (['a', 'b', 'c'] : List Char)).length ≠ 2)
    ∧ (goSplit '.' (natToChars 3 ++ '.' :: ['r', 't', 'b']) =
          [natToChars 3, ['r', 't', 'b']]
      ∧ goParseUint64 (natToChars 3) = some 3
      ∧ (resourceTencentCloudVpcRouteEntryRead
          (natToChars 3 ++ '.' :: ['r', 't', 'b'])
          (fun _ _ => .ok (0, [])) 2).2 = true
      ∧ (resourceTencentCloudVpcRouteEntryDelete
          (natToChars 3 ++ '.' :: ['r', 't', 'b'])
          (fun _ _ _ => none) 2).2 = true
      ∧ resourceTencentCloudVpcRouteEntryRead ['a', 'b', 'c']
          (fun _ _ => .ok (0, [])) 2 =
          (.error (.otherErr "entry id be destroyed, we can not get route table id"),
            false)
      ∧ resourceTencentCloudVpcRouteEntryDelete ['a', 'b', 'c']
          (fun _ _ _ => none) 2 =
          (.error (.otherErr "entry id be destroyed, we can not get route table id"),
            false)) :=
  ⟨⟨by norm_num, by decide, by decide⟩,
    tc_route_entry_id_roundtrip 3 ['r', 't', 'b'] ['a', 'b', 'c']
      (fun _ _ => .ok (0, [])) (fun _ _ _ => none) 2
      (by norm_num) (by decide) (by decide)⟩

/-- `resource.Retry` variant that also counts the attempts made (each attempt
is exactly one remote call by the callbacks below). -/
def runRetryCount (step : Nat → RetryOutcome) : Nat → Nat → Option GoErr × Nat
  | fuel, i =>
    match step i with
    | .done => (none, 1)
    | .nonRetryable e => (some e, 1)
    | .retryable e =>
      match fuel with
      | 0 => (some e, 1)
      | fuel + 1 =>
        let r := runRetryCount step fuel (i + 1)
        (r.1, r.2 + 1)

/-! ## The CBS storage resource (`part_006`) -/

/-- A CBS disk as `DescribeDiskById` reports it (only the field the
modelled control flow inspects). -/
structure CbsDisk where
  diskState : String
deriving DecidableEq, Repr

/-- The kinds of remote CBS calls a CRUD operation can make (used to trace
which calls an operation performs). -/
inductive CbsCall where
  | modifyDiskAttributes
  | resizeDisk
  | describeDisk
  | deleteDisk
deriving DecidableEq, Repr

/-- The retry callback around `cbsService.ResizeDisk` in
`resourceTencentCloudCbsStorageUpdate`: `resize i` is the attempt-`i`
outcome (`none` = success); errors are classified by `retryError(e)`. -/
def cbsResizeStep (resize : Nat → Option GoErr) (i : Nat) : RetryOutcome :=
  match resize i with
  | none => .done
  | some e => retryError e []

/-- The post-resize poll callback in `resourceTencentCloudCbsStorageUpdate`
(the subject of C3): re-describes the disk; a transport error goes through
`retryError(e)`; a non-nil disk whose `DiskState` is
`CBS_STORAGE_STATUS_EXPANDING` is `resource.RetryableError`; anything else
returns success. -/
def cbsExpandPollStep (describe : Nat → Except GoErr (Option CbsDisk))
    (i : Nat) : RetryOutcome :=
  match describe i with
  | .error e => retryError e []
  | .ok storage =>
    match storage with
    | some d =>
      if d.diskState = CBS_STORAGE_STATUS_EXPANDING then
        .retryable (.otherErr ("cbs storage status is " ++ d.diskState))
      else .done
    | none => .done

/-- The `storage_size` branch of `resourceTencentCloudCbsStorageUpdate`:
compares the old and new values and rejects a decrease with a locally
constructed error before any remote call; otherwise retries `ResizeDisk`,
then polls `DescribeDiskById` until the disk state leaves `EXPANDING`; a
surfaced poll error aborts the update.  Returns the result (`ok true` means
`d.SetPartial("storage_size")` was reached) and whether any remote call was
made in this branch. -/
def cbsStorageSizeUpdateBranch (oldValue newValue : Int)
    (resize : Nat → Option GoErr)
    (describe : Nat → Except GoErr (Option CbsDisk))
    (writeFuel readFuel : Nat) : Except GoErr Bool × Bool :=
  if oldValue > newValue then
    (.error (.otherErr "storage size must be greater than current storage size"),
      false)
  else
    match runRetry (cbsResizeStep resize) writeFuel 0 with
    | some e => (.error e, true)
    | none =>
      match runRetry (cbsExpandPollStep describe) readFuel 0 with
      | some e => (.error e, true)
      | none => (.ok true, true)

/-- The retry callback of `resourceTencentCloudCbsStorageRead`: describes the
disk, passing transport errors through `retryError(e)`; the callback itself
never inspects the disk (the nil check happens after the loop). -/
def cbsReadStep (describe : Nat → Except GoErr (Option CbsDisk))
    (i : Nat) : StepResult (Option CbsDisk) :=
  match describe i with
  | .error e =>
    match retryError e [] with
    | .retryable e' => .retry e'
    | _ => .abort e
  | .ok storage => .ok storage

/-- `resourceTencentCloudCbsStorageRead`: polls `DescribeDiskById`; on a
surfaced error the ID is left unchanged and the error returned; when the
describe result is nil the resource ID is cleared (`d.SetId("")`) and `nil`
returned; otherwise the attributes are set and `nil` returned.  Result and
the resource ID after the call. -/
def resourceTencentCloudCbsStorageRead (storageId : String)
    (describe : Nat → Except GoErr (Option CbsDisk)) (fuel : Nat) :
    Except GoErr Unit × String :=
  match runPoll (cbsReadStep describe) fuel 0 with
  | .error e => (.error e, storageId)
  | .ok none => (.ok (), "")
  | .ok (some _) => (.ok (), storageId)

/-- The retry callback of `resourceTencentCloudCbsStorageDelete`:
`DeleteDiskById`, with errors classified by `retryError(e, InternalError)`. -/
def cbsDeleteStep (deleteDisk : Nat → Option GoErr) (i : Nat) : RetryOutcome :=
  match deleteDisk i with
  | none => .done
  | some e => retryError e [InternalError]

/-- `resourceTencentCloudCbsStorageDelete`: retries `DeleteDiskById` and
returns as soon as the loop finishes — there is no describe/poll after the
delete.  Returns the result and the full trace of remote calls made (one
`deleteDisk` entry per attempt). -/
def resourceTencentCloudCbsStorageDelete (deleteDisk : Nat → Option GoErr)
    (fuel : Nat) : Except GoErr Unit × List CbsCall :=
  let r := runRetryCount (cbsDeleteStep deleteDisk) fuel 0
  (match r.1 with
    | some e => .error e
    | none => .ok (), List.replicate r.2 .deleteDisk)

/-! ## The Redis service (`service_tencentcloud_redis.go`) and the Redis
instance resource (`part_008`) -/

/-- A Redis instance as the vendor's `DescribeInstances` reports it (only
the field the modelled control flow inspects). -/
structure RedisInstanceSet where
  status : Int
deriving DecidableEq, Repr

/-- `RedisService.CheckRedisCreateOk`, fetch part: issues the describe
request; on a non-SDK error (the gateway-timeout workaround) it sleeps and
re-issues the request, up to three extra times; an SDK error is returned
immediately.  `remote j` is the response of the `j`-th request issued inside
this single call. -/
def checkRedisFetch (remote : Nat → Except GoErr (List RedisInstanceSet)) :
    Except GoErr (List RedisInstanceSet) :=
  let retryNonSdk := fun (r : Except GoErr (List RedisInstanceSet)) (j : Nat) =>
    match r with
    | .error e => if e.isSdk then r else remote j
    | .ok l => .ok l
  retryNonSdk (retryNonSdk (retryNonSdk (remote 0) 1) 2) 3

/-- `RedisService.CheckRedisCreateOk`, classification part: returns
`(has, online, info, errRet)` exactly as the Go named-return values are
populated: empty instance set → not present; more than one instance → error;
otherwise `has` is set and `info` populated, `online` exactly for
`REDIS_STATUS_ONLINE`, statuses other than `ONLINE`/`INIT`/`PROCESSING`
yield a delivery-failure error (with `info` still populated). -/
def CheckRedisCreateOk (remote : Nat → Except GoErr (List RedisInstanceSet)) :
    Bool × Bool × Option RedisInstanceSet × Option GoErr :=
  match checkRedisFetch remote with
  | .error e => (false, false, none, some e)
  | .ok l =>
    match l with
    | [] => (false, false, none, none)
    | [info] =>
      if info.status = REDIS_STATUS_ONLINE then
        (true, true, some info, none)
      else if info.status = REDIS_STATUS_INIT ∨
          info.status = REDIS_STATUS_PROCESSING then
        (true, false, some info, none)
      else
        (true, false, some info,
          some (.otherErr "redis instance delivery failure"))
    | _ =>
      (false, false, none,
        some (.otherErr "redis DescribeInstances one id get several redis info"))

/-- The retry callback of `resourceTencentCloudRedisInstanceCreate`'s poll:
`CheckRedisCreateOk`; an error or a missing instance is
`resource.NonRetryableError`, an online instance ends the poll, anything
else is `resource.RetryableError("create redis task is processing")`.
`remote i j` is the `j`-th request response inside poll attempt `i`. -/
def redisCreatePollStep
    (remote : Nat → Nat → Except GoErr (List RedisInstanceSet))
    (i : Nat) : RetryOutcome :=
  match CheckRedisCreateOk (remote i) with
  | (has, online, _, err) =>
    match err with
    | some e => .nonRetryable e
    | none =>
      if !has then .nonRetryable (.otherErr "redis instance not exists.")
      else if online then .done
      else .retryable (.otherErr "create redis task is processing")

/-- Go's `strings.Contains(s, sub)`: `sub` occurs as a contiguous substring
of `s`. -/
def goContains (s sub : List Char) : Bool :=
  match s with
  | [] => sub.isEmpty
  | _ :: rest => sub.isPrefixOf s || goContains rest sub

/-- `resourceTencentCloudRedisInstanceCreate`: rejects an availability zone
not containing the region, calls `CreateInstances` (response
`createInstances`), rejects an empty deal ID, then polls
`CheckRedisCreateOk` until the instance is online; only after a successful
poll is the Terraform resource ID set (`d.SetId(redisId)`).  Returns the
result and the resource ID after the call (`""` = never set). -/
def resourceTencentCloudRedisInstanceCreate
    (availabilityZone region : List Char)
    (createInstances : Except GoErr String)
    (pollRemote : Nat → Nat → Except GoErr (List RedisInstanceSet))
    (fuel : Nat) : Except GoErr Unit × String :=
  if availabilityZone ≠ [] ∧ ¬(goContains availabilityZone region) then
    (.error (.otherErr "zone not in region"), "")
  else
    match createInstances with
    | .error e => (.error e, "")
    | .ok dealId =>
      if dealId = "" then
        (.error (.otherErr "redis api CreateInstances return empty redis id"),
          "")
      else
        match runRetry (redisCreatePollStep pollRemote) fuel 0 with
        | some e => (.error e, "")
        | none => (.ok (), dealId)

/-- The retry callback of `resourceTencentCloudRedisInstanceRead`: runs
`CheckRedisCreateOk`; an instance in `ISOLATE` or `TODELETE` status clears
the ID and succeeds (checked before the error!), an error is
`resource.NonRetryableError`, a missing instance clears the ID and
succeeds.  The value is `(onlineHas, info)`. -/
def redisReadStep
    (remote : Nat → Nat → Except GoErr (List RedisInstanceSet))
    (i : Nat) : StepResult (Bool × Option RedisInstanceSet) :=
  match CheckRedisCreateOk (remote i) with
  | (has, _, info, e) =>
    match info with
    | some inf =>
      if inf.status = REDIS_STATUS_ISOLATE ∨
          inf.status = REDIS_STATUS_TODELETE then
        .ok (false, some inf)
      else
        match e with
        | some err => .abort err
        | none => if !has then .ok (false, some inf) else .ok (true, some inf)
    | none =>
      match e with
      | some err => .abort err
      | none => if !has then .ok (false, none) else .ok (true, none)

/-- `resourceTencentCloudRedisInstanceRead`: polls `redisReadStep`; a
surfaced error is returned with the ID unchanged; `onlineHas = false` (the
instance is isolated, marked for deletion, or absent) returns `nil` with
the ID cleared; otherwise the remaining attribute-setting code (abstracted
as `rest`) runs with the instance info.  Result and resource ID after the
call. -/
def resourceTencentCloudRedisInstanceRead (id : String)
    (remote : Nat → Nat → Except GoErr (List RedisInstanceSet))
    (fuel : Nat) (rest : Option RedisInstanceSet → Except GoErr Unit) :
    Except GoErr Unit × String :=
  match runPoll (redisReadStep remote) fuel 0 with
  | .error _ => (.error (.otherErr "Fail to get info from redis"), id)
  | .ok (false, _) => (.ok (), "")
  | .ok (true, info) => (rest info, id)

/-- The `mem_size` branch of `resourceTencentCloudRedisInstanceUpdate`:
rejects a non-increase of `mem_size` (and a value below 1) with a locally
constructed error before any remote call.  Only the local validation prefix
is modelled; `apiReached` is true when control passes it. -/
def redisMemSizeUpdateGate (oldMemSize newMemSize : Int) :
    Except GoErr Unit × Bool :=
  if oldMemSize ≥ newMemSize then
    (.error (.otherErr "redis mem_size can only increase"), false)
  else if newMemSize < 1 then
    (.error (.otherErr "redis mem_size value cannot be set to less than 1"),
      false)
  else
    (.ok (), true)

/-! ## `RedisService.DescribeInstances` pagination -/

/-- One vendor `DescribeInstances` response page: the `TotalCount` field and
the instance items of the page.  Only the fields the pagination logic and
the zone filter inspect are modelled. -/
structure RedisPage where
  totalCount : Int
  instanceSet : List Nat      -- the `ZoneId` of each returned item
deriving Repr

/-- The per-item body of the `DescribeInstances` loop, folded over one
page's `InstanceSet`: skips items whose zone does not match the requested
one, resolves the item's zone name through the service zone map (an error
aborts), appends the converted instance, and returns early once `needLimit`
is reached.  Instances are represented by their resolved zone name (the
only converted field a claim mentions). -/
def describeInstancesItems (zoneMap : List (Nat × String)) (zoneId : Option Nat)
    (needLimit : Int) : List Nat → List String →
    Except GoErr (List String × Bool)
  | [], acc => .ok (acc, false)
  | itemZone :: rest, acc =>
    if (zoneId.any fun z => itemZone != z) then
      describeInstancesItems zoneMap zoneId needLimit rest acc
    else
      match (zoneMap.find? (fun p => p.1 = itemZone)).map Prod.snd with
      | none => .error (.otherErr "this redis zoneid not support yet")
      | some name =>
        let acc' := acc ++ [name]
        if needLimit > 0 ∧ (acc'.length : Int) ≥ needLimit then
          .ok (acc', true)
        else
          describeInstancesItems zoneMap zoneId needLimit rest acc'

/-- The paginated fetch loop of `RedisService.DescribeInstances`
(label `needMoreItems`): fetches the page at `offset`, decrements the
remaining count by the fixed page size 2 and advances the offset by 2,
folds the page's items, and loops while the remaining count is
non-negative.  Besides the accumulated instances it returns the list of
offsets requested, in order. -/
def describeInstancesLoop (pages : Nat → RedisPage)
    (zoneMap : List (Nat × String)) (zoneId : Option Nat) (needLimit : Int)
    (offset : Nat) (left : Int) (acc : List String) :
    Except GoErr (List String) × List Nat :=
  let page := pages offset
  let left' := left - 2
  let offset' := offset + 2
  match describeInstancesItems zoneMap zoneId needLimit page.instanceSet acc with
  | .error e => (.error e, [offset])
  | .ok (acc', early) =>
    if early then (.ok acc', [offset])
    else if left' < 0 then (.ok acc', [offset])
    else
      match describeInstancesLoop pages zoneMap zoneId needLimit
          offset' left' acc' with
      | (r, offs) => (r, offset :: offs)
termination_by left.toNat + 1
decreasing_by
  simp only [not_lt] at *
  omega

/-- `RedisService.DescribeInstances`: resolves the requested zone name
through the service zone map (empty name = no filter), then pages through
the vendor API with fixed limit 2 starting at offset 0; the first page's
`TotalCount` initialises the remaining count.  `pages o` is the response to
the request with offset `o`.  Returns the instances (as resolved zone
names) and the offsets requested. -/
def DescribeInstances (pages : Nat → RedisPage)
    (zoneMap : List (Nat × String)) (zoneName : String) (needLimit : Int) :
    Except GoErr (List String) × List Nat :=
  if zoneName = "" then
    describeInstancesLoop pages zoneMap none needLimit 0
      (pages 0).totalCount []
  else
    match (zoneMap.find? (fun p => p.2 = zoneName)).map Prod.fst with
    | none => (.error (.otherErr "this redis zone not support yet"), [])
    | some zid =>
      describeInstancesLoop pages zoneMap (some zid) needLimit 0
        (pages 0).totalCount []

/-! ## The key pair resource (`part_012`) -/

/-- `KYE_PAIR_INVALID_ERROR` (sic): vendor error code passed to `retryError`
by the key-pair delete (value defined outside the provided sources). -/
def KYE_PAIR_INVALID_ERROR : String := "InvalidKeyPair"

/-- `KEY_PAIR_NOT_SUPPORT_ERROR`: vendor error code passed to `retryError`
by the key-pair delete (value defined outside the provided sources). -/
def KEY_PAIR_NOT_SUPPORT_ERROR : String := "UnsupportedOperation.KeyPair"

/-- A key pair as `DescribeKeyPairById` reports it (the fields the modelled
control flow inspects). -/
structure CvmKeyPair where
  publicKey : Option (List Char)
  associatedInstanceIds : List String
deriving DecidableEq, Repr

/-- The `StateFunc` of the `public_key` schema attribute in
`resourceTencentCloudKeyPair`: splits on `" "`, keeps only the first two
fields when there are more than two, and trims surrounding whitespace.
(The non-string case of the Go type switch returns `""`, i.e. `[]`.) -/
def keyPairPublicKeyStateFunc (v : List Char) : List Char :=
  let split := goSplit ' ' v
  let publicKey := if split.length > 2 then goJoin ' ' (split.take 2) else v
  goTrimSpace publicKey

/-- The normalisation `resourceTencentCloudKeyPairRead` applies to the
public key returned by the API before storing it: splits on `" "` and keeps
only the first two fields when there are more than two (no trimming). -/
def keyPairReadPublicKey (pk : List Char) : List Char :=
  let split := goSplit ' ' pk
  if split.length > 2 then goJoin ' ' (split.take 2) else pk

/-- The retry callback around `DescribeKeyPairById` used by both the
key-pair Read and Delete: errors are classified by
`retryError(errRet, InternalError)`. -/
def keyPairDescribeStep (describe : Nat → Except GoErr (Option CvmKeyPair))
    (i : Nat) : StepResult (Option CvmKeyPair) :=
  match describe i with
  | .error e =>
    match retryError e [InternalError] with
    | .retryable e' => .retry e'
    | _ => .abort e
  | .ok kp => .ok kp

/-- `resourceTencentCloudKeyPairRead`: polls `DescribeKeyPairById`; a nil
key pair clears the resource ID and returns `nil`; otherwise the attributes
are set, the stored `public_key` being the two-field truncation of the
API-returned key (when the API returned one).  Returns the result, the
resource ID after the call, and the stored `public_key` (`none` = the
attribute was not written). -/
def resourceTencentCloudKeyPairRead (keyId : String)
    (describe : Nat → Except GoErr (Option CvmKeyPair)) (fuel : Nat) :
    Except GoErr Unit × String × Option (List Char) :=
  match runPoll (keyPairDescribeStep describe) fuel 0 with
  | .error e => (.error e, keyId, none)
  | .ok none => (.ok (), "", none)
  | .ok (some kp) =>
    match kp.publicKey with
    | some pk => (.ok (), keyId, some (keyPairReadPublicKey pk))
    | none => (.ok (), keyId, none)

/-- The retry callback around `cvmService.UnbindKeyPair` in
`resourceTencentCloudKeyPairDelete`: a failure whose SDK code is
`CVM_NOT_FOUND_ERROR` is treated as success; every other failure goes
through `retryError(errRet)` (no additional codes). -/
def keyPairUnbindStep (unbind : Nat → Option GoErr) (i : Nat) : RetryOutcome :=
  match unbind i with
  | none => .done
  | some e =>
    if e.isSdk ∧ e.code = CVM_NOT_FOUND_ERROR then .done
    else retryError e []

/-- The retry callback around `cvmService.DeleteKeyPair`: errors are
classified by `retryError(errRet, KYE_PAIR_INVALID_ERROR,
KEY_PAIR_NOT_SUPPORT_ERROR)`. -/
def keyPairDeleteStep (del : Nat → Option GoErr) (i : Nat) : RetryOutcome :=
  match del i with
  | none => .done
  | some e => retryError e [KYE_PAIR_INVALID_ERROR, KEY_PAIR_NOT_SUPPORT_ERROR]

/-- `resourceTencentCloudKeyPairDelete`: describes the key pair (clearing
the ID and succeeding when it is already gone), unbinds it from its
associated instances when there are any, then deletes it.  Returns the
result and the resource ID after the call. -/
def resourceTencentCloudKeyPairDelete (keyId : String)
    (describe : Nat → Except GoErr (Option CvmKeyPair))
    (unbind : Nat → Option GoErr) (del : Nat → Option GoErr)
    (readFuel writeFuel : Nat) : Except GoErr Unit × String :=
  match runPoll (keyPairDescribeStep describe) readFuel 0 with
  | .error e => (.error e, keyId)
  | .ok none => (.ok (), "")
  | .ok (some kp) =>
    match (if kp.associatedInstanceIds.length > 0 then
        runRetry (keyPairUnbindStep unbind) writeFuel 0
      else none) with
    | some e => (.error e, keyId)
    | none =>
      match runRetry (keyPairDeleteStep del) writeFuel 0 with
      | some e => (.error e, keyId)
      | none => (.ok (), keyId)

/-! ## The VPN gateway delete poll (`resource_tc_vpn_gateway.go`) -/

/-- The final retry callback of `resourceTencentCloudVpnGatewayDelete`
("to get the status of gateway"): re-describes the gateway after the delete
request; `describe i` is the attempt-`i` response, carrying the size of the
returned `VpnGatewaySet`.  A non-SDK error goes through `retryError`, the
SDK code `VPCNotFound` means the gateway is gone (success), any other SDK
error goes through `retryError`; an empty result set is success and a
non-empty one retries with "deleting retry". -/
def vpnGatewayDeletePollStep (describe : Nat → Except GoErr Nat)
    (i : Nat) : RetryOutcome :=
  match describe i with
  | .error e =>
    if ¬e.isSdk then retryError e []
    else if e.code = VPCNotFound then .done
    else retryError e []
  | .ok n => if n = 0 then .done else .retryable (.otherErr "deleting retry")

/-! ## The provider credential schema (`part_011`) -/

/-- `PROVIDER_SECRET_ID` (from the sources). -/
def PROVIDER_SECRET_ID : String := "TENCENTCLOUD_SECRET_ID"

/-- `PROVIDER_SECRET_KEY` (from the sources). -/
def PROVIDER_SECRET_KEY : String := "TENCENTCLOUD_SECRET_KEY"

/-- `PROVIDER_SECURITY_TOKEN` (from the sources). -/
def PROVIDER_SECURITY_TOKEN : String := "TENCENTCLOUD_SECURITY_TOKEN"

/-- `PROVIDER_REGION` (from the sources). -/
def PROVIDER_REGION : String := "TENCENTCLOUD_REGION"

/-- `PROVIDER_PROTOCOL` (from the sources). -/
def PROVIDER_PROTOCOL : String := "TENCENTCLOUD_PROTOCOL"

/-- `PROVIDER_DOMAIN` (from the sources). -/
def PROVIDER_DOMAIN : String := "TENCENTCLOUD_DOMAIN"

/-- One top-level field of the provider schema: its Required/Optional flags,
the environment variable consulted by its `schema.EnvDefaultFunc`, the
static fallback default, and the Sensitive flag. -/
structure ProviderSchemaField where
  required : Bool
  optional : Bool
  defaultEnvKey : Option String
  defaultValue : Option String
  sensitive : Bool
deriving DecidableEq, Repr

/-- The top-level scalar fields of the provider schema declared by
`func Provider()` (the nested `assume_role` block is not modelled; no claim
touches it). -/
def Provider : List (String × ProviderSchemaField) :=
  [("secret_id", ⟨true, false, some PROVIDER_SECRET_ID, none, false⟩),
   ("secret_key", ⟨true, false, some PROVIDER_SECRET_KEY, none, true⟩),
   ("security_token", ⟨false, true, some PROVIDER_SECURITY_TOKEN, none, true⟩),
   ("region", ⟨true, false, some PROVIDER_REGION, none, false⟩),
   ("protocol", ⟨false, true, some PROVIDER_PROTOCOL, some "HTTPS", false⟩),
   ("domain", ⟨false, true, some PROVIDER_DOMAIN, none, false⟩)]

/-- The Terraform SDK's `schema.EnvDefaultFunc(key, dv)`: when the field is
absent from the configuration, its value is the environment variable `key`
when set, otherwise the static default `dv`. -/
def envDefaultFunc (key : String) (dv : Option String)
    (env : String → Option String) : Option String :=
  match env key with
  | some v => some v
  | none => dv

/-- The value a provider field effectively takes: the configured value when
set, otherwise the value produced by the field's default function. -/
def providerFieldValue (name : String) (config : Option String)
    (env : String → Option String) : Option String :=
  match (Provider.find? (fun p => p.1 = name)).map Prod.snd with
  | none => none
  | some f =>
    match config with
    | some v => some v
    | none =>
      match f.defaultEnvKey with
      | some k => envDefaultFunc k f.defaultValue env
      | none => f.defaultValue

/-! ## Claim theorems -/

/-- **C8** — The provider schema declares `secret_id`, `secret_key` and
`region` as Required, each with an `EnvDefaultFunc` on
`TENCENTCLOUD_SECRET_ID`, `TENCENTCLOUD_SECRET_KEY` and
`TENCENTCLOUD_REGION` respectively, so whenever the field is not set in
configuration its value is sourced from that environment variable. -/
theorem tc_provider_credential_schema (env : String → Option String) :
    ((Provider.find? (fun p => p.1 = "secret_id")).map Prod.snd =
      some ⟨true, false, some "TENCENTCLOUD_SECRET_ID", none, false⟩)
    ∧ ((Provider.find? (fun p => p.1 = "secret_key")).map Prod.snd =
      some ⟨true, false, some "TENCENTCLOUD_SECRET_KEY", none, true⟩)
    ∧ ((Provider.find? (fun p => p.1 = "region")).map Prod.snd =
      some ⟨true, false, some "TENCENTCLOUD_REGION", none, false⟩)
    ∧ providerFieldValue "secret_id" none env = env "TENCENTCLOUD_SECRET_ID"
    ∧ providerFieldValue "secret_key" none env = env "TENCENTCLOUD_SECRET_KEY"
    ∧ providerFieldValue "region" none env = env "TENCENTCLOUD_REGION" := by
  have h1 : (Provider.find? (fun p => p.1 = "secret_id")).map Prod.snd =
      some ⟨true, false, some "TENCENTCLOUD_SECRET_ID", none, false⟩ := by decide
  have h2 : (Provider.find? (fun p => p.1 = "secret_key")).map Prod.snd =
      some ⟨true, false, some "TENCENTCLOUD_SECRET_KEY", none, true⟩ := by decide
  have h3 : (Provider.find? (fun p => p.1 = "region")).map Prod.snd =
      some ⟨true, false, some "TENCENTCLOUD_REGION", none, false⟩ := by decide
  refine ⟨h1, h2, h3, ?_, ?_, ?_⟩
  · simp only [providerFieldValue, h1, envDefaultFunc]
    cases env "TENCENTCLOUD_SECRET_ID" <;> rfl
  · simp only [providerFieldValue, h2, envDefaultFunc]
    cases env "TENCENTCLOUD_SECRET_KEY" <;> rfl
  · simp only [providerFieldValue, h3, envDefaultFunc]
    cases env "TENCENTCLOUD_REGION" <;> rfl

/-- **C1 (counterexample)** — The route-table-entry Create rejects the input
`next_type = "EIP"`, `next_hub = "1"` with a locally constructed error
before any remote call (the call count is `0`), contradicting the claim
that no operation rejects an input based on cross-field relations before
any API call. -/
theorem tc_c1_local_validation_counterexample :
    resourceTencentCloudVpcRouteEntryCreate
      ⟨"", ['r', 't', 'b'], "10.4.4.0/24", "EIP", "1"⟩ (.ok 5) =
      (.error (.otherErr "if next_type is EIP, next_hub can only be 0"), 0) := by
  rfl

/-- **C1 (amended)** — Validation is mostly schema-level or remote, but some
operations do enforce local invariants before any API call: route-table-entry
Create rejects `next_type = EIP` with `next_hub ≠ "0"` (a cross-field
relation), the CBS `storage_size` update rejects a size decrease and the
Redis `mem_size` update rejects a non-increase (old/new comparisons), each
with a locally constructed error and zero remote calls. -/
theorem tc_c1_amended (inp : RouteEntryInput) (createRoutes : Except GoErr Nat)
    (oldV newV oldMem newMem : Int) (resize : Nat → Option GoErr)
    (describe : Nat → Except GoErr (Option CbsDisk)) (wf rf : Nat)
    (hfields : inp.routeTableId ≠ [] ∧ inp.destinationCidrBlock ≠ "" ∧
      inp.nextType ≠ "" ∧ inp.nextHub ≠ "")
    (heip : inp.nextType = GATE_WAY_TYPE_EIP ∧ inp.nextHub ≠ "0")
    (hdec : oldV > newV) (hmem : oldMem ≥ newMem) :
    resourceTencentCloudVpcRouteEntryCreate inp createRoutes =
      (.error (.otherErr "if next_type is EIP, next_hub can only be 0"), 0)
    ∧ cbsStorageSizeUpdateBranch oldV newV resize describe wf rf =
      (.error (.otherErr "storage size must be greater than current storage size"),
        false)
    ∧ redisMemSizeUpdateGate oldMem newMem =
      (.error (.otherErr "redis mem_size can only increase"), false) := by
  obtain ⟨h1, h2, h3, h4⟩ := hfields
  refine ⟨?_, ?_, ?_⟩
  · simp [resourceTencentCloudVpcRouteEntryCreate, h1, h2, h3, h4, heip,
      GATE_WAY_TYPE_EIP]
  · simp [cbsStorageSizeUpdateBranch, hdec]
  · simp only [redisMemSizeUpdateGate, if_pos hmem]

/-- Witness for **C1 (amended)** at concrete inputs. -/
theorem tc_c1_amended_witness :
    ((['r', 't', 'b'] : List Char) ≠ [] ∧ ("10.4.4.0/24" : String) ≠ "" ∧
        ("EIP" : String) ≠ "" ∧ ("1" : String) ≠ "")
    ∧ (("EIP" : String) = GATE_WAY_TYPE_EIP ∧ ("1" : String) ≠ "0")
    ∧ (3 : Int) > 2 ∧ (4 : Int) ≥ 4
    ∧ (resourceTencentCloudVpcRouteEntryCreate
        ⟨"", ['r', 't', 'b'], "10.4.4.0/24", "EIP", "1"⟩ (.ok 5) =
        (.error (.otherErr "if next_type is EIP, next_hub can only be 0"), 0)
      ∧ cbsStorageSizeUpdateBranch 3 2 (fun _ => none) (fun _ => .ok none) 1 1 =
        (.error
          (.otherErr "storage size must be greater than current storage size"),
          false)
      ∧ redisMemSizeUpdateGate 4 4 =
        (.error (.otherErr "redis mem_size can only increase"), false)) :=
  ⟨⟨by decide, by decide, by decide, by decide⟩, ⟨by decide, by decide⟩,
    by norm_num, by norm_num,
    tc_c1_amended ⟨"", ['r', 't', 'b'], "10.4.4.0/24", "EIP", "1"⟩ (.ok 5)
      3 2 4 4 (fun _ => none) (fun _ => .ok none) 1 1
      ⟨by decide, by decide, by decide, by decide⟩ ⟨by decide, by decide⟩
      (by norm_num) (by norm_num)⟩

/-- **C2 (counterexample)** — The CBS storage Delete returns success as soon
as the `DeleteDiskById` retry loop succeeds: with a remote whose delete
succeeds immediately it returns `ok` having made exactly one remote call,
the delete itself — it never re-describes the disk to poll for
disappearance, contradicting "for every resource, Delete polls the remote
API until the resource has disappeared before returning success". -/
theorem tc_c2_cbs_delete_no_poll_counterexample :
    resourceTencentCloudCbsStorageDelete (fun _ => none) 5 =
      (.ok (), [CbsCall.deleteDisk]) := by
  rfl

/-- **C2 (amended)** — Delete behaviour is per-resource: the VPN gateway
delete does poll for disappearance (its post-delete poll succeeds exactly
when the describe result set is empty or the `VPCNotFound` code is
returned, and retries while the gateway is still listed), but the CBS
storage delete returns success directly after the delete request succeeds,
performing no describe call at all. -/
theorem tc_c2_amended (describe : Nat → Except GoErr Nat) (i n : Nat)
    (r : String) (deleteDisk : Nat → Option GoErr) (fuel j : Nat)
    (hok : describe i = .ok n)
    (hnf : describe j = .error (.sdkErr VPCNotFound r))
    (hdel : deleteDisk 0 = none) :
    (n = 0 → vpnGatewayDeletePollStep describe i = .done)
    ∧ (n ≠ 0 → vpnGatewayDeletePollStep describe i =
        .retryable (.otherErr "deleting retry"))
    ∧ vpnGatewayDeletePollStep describe j = .done
    ∧ CbsCall.describeDisk ∉ (resourceTencentCloudCbsStorageDelete
        deleteDisk fuel).2
    ∧ resourceTencentCloudCbsStorageDelete deleteDisk fuel =
        (.ok (), [.deleteDisk]) := by
  have hstep : cbsDeleteStep deleteDisk 0 = .done := by
    simp [cbsDeleteStep, hdel]
  have hrun : runRetryCount (cbsDeleteStep deleteDisk) fuel 0 = (none, 1) := by
    cases fuel <;> simp [runRetryCount, hstep]
  refine ⟨?_, ?_, ?_, ?_, ?_⟩
  · intro hn
    simp [vpnGatewayDeletePollStep, hok, hn]
  · intro hn
    simp [vpnGatewayDeletePollStep, hok, hn]
  · simp [vpnGatewayDeletePollStep, hnf, GoErr.isSdk, GoErr.code]
  · simp only [resourceTencentCloudCbsStorageDelete, hrun]
    intro hmem
    have := (List.mem_replicate.mp hmem).2
    simp at this
  · simp [resourceTencentCloudCbsStorageDelete, hrun, List.replicate]

/-- Witness for **C2 (amended)** at a concrete remote. -/
theorem tc_c2_amended_witness :
    ((fun x : Nat => if x = 0 then (Except.ok 1 : Except GoErr Nat) else
        if x = 1 then Except.error (GoErr.sdkErr VPCNotFound "gone") else
        Except.ok 0) 0 = Except.ok (1 : Nat)
      ∧ (fun x : Nat => if x = 0 then (Except.ok 1 : Except GoErr Nat) else
        if x = 1 then Except.error (GoErr.sdkErr VPCNotFound "gone") else
        Except.ok 0) 1 = Except.error (GoErr.sdkErr VPCNotFound "gone")
      ∧ (fun _ : Nat => (none : Option GoErr)) 0 = none)
    ∧ ((1 = 0 → vpnGatewayDeletePollStep
        (fun x : Nat => if x = 0 then (Except.ok 1 : Except GoErr Nat) else
          if x = 1 then Except.error (GoErr.sdkErr VPCNotFound "gone") else
          Except.ok 0) 0 = .done)
      ∧ (1 ≠ 0 → vpnGatewayDeletePollStep
        (fun x : Nat => if x = 0 then (Except.ok 1 : Except GoErr Nat) else
          if x = 1 then Except.error (GoErr.sdkErr VPCNotFound "gone") else
          Except.ok 0) 0 = .retryable (.otherErr "deleting retry"))
      ∧ vpnGatewayDeletePollStep
        (fun x : Nat => if x = 0 then (Except.ok 1 : Except GoErr Nat) else
          if x = 1 then Except.error (GoErr.sdkErr VPCNotFound "gone") else
          Except.ok 0) 1 = .done
      ∧ CbsCall.describeDisk ∉ (resourceTencentCloudCbsStorageDelete
          (fun _ => none) 7).2
      ∧ resourceTencentCloudCbsStorageDelete (fun _ => none) 7 =
          (.ok (), [.deleteDisk])) :=
  ⟨⟨rfl, rfl, rfl⟩,
    tc_c2_amended
      (fun x : Nat => if x = 0 then (Except.ok 1 : Except GoErr Nat) else
        if x = 1 then Except.error (GoErr.sdkErr VPCNotFound "gone") else
        Except.ok 0)
      0 1 "gone" (fun _ => none) 7 1 rfl rfl rfl⟩

/-- A `nonRetryable` first attempt makes `resource.Retry` surface the error
at once. -/
theorem runRetry_first_nonRetryable (step : Nat → RetryOutcome) (fuel i : Nat)
    (e : GoErr) (h : step i = .nonRetryable e) :
    runRetry step fuel i = some e := by
  cases fuel <;> (unfold runRetry; rw [h])

/-- When every attempt is `retryable` with the same error, `resource.Retry`
surfaces that error at the timeout. -/
theorem runRetry_all_retryable_eq (step : Nat → RetryOutcome) (fuel i : Nat)
    (e : GoErr) (h : ∀ j, step j = .retryable e) :
    runRetry step fuel i = some e := by
  induction fuel generalizing i with
  | zero => unfold runRetry; rw [h i]
  | succ fuel ih => unfold runRetry; rw [h i]; exact ih (i + 1)

/-- An `ok` first attempt makes the poll succeed with its value at once. -/
theorem runPoll_first_ok {α : Type} (step : Nat → StepResult α) (fuel i : Nat)
    (a : α) (h : step i = .ok a) : runPoll step fuel i = .ok a := by
  cases fuel <;> (unfold runPoll; rw [h])

/-- **C3** — The CBS `storage_size` update poll: given attempt `i`'s
describe response `st` (no transport error), the callback is
`resource.RetryableError` exactly when the disk is non-nil with `DiskState =
EXPANDING`, and returns success exactly when the disk's state is not
`EXPANDING` (in particular as soon as it has left `EXPANDING`); and when the
poll surfaces an error, the whole `storage_size` update aborts with that
error (after a resize that succeeded). -/
theorem tc_c3_cbs_expand_poll (describe : Nat → Except GoErr (Option CbsDisk))
    (i : Nat) (st : Option CbsDisk) (resize : Nat → Option GoErr)
    (oldV newV : Int) (wf rf : Nat) (e : GoErr)
    (hok : describe i = .ok st) (hsize : oldV ≤ newV)
    (hresize : runRetry (cbsResizeStep resize) wf 0 = none)
    (herr : runRetry (cbsExpandPollStep describe) rf 0 = some e) :
    ((∃ msg, cbsExpandPollStep describe i = .retryable (.otherErr msg)) ↔
      st = some ⟨CBS_STORAGE_STATUS_EXPANDING⟩)
    ∧ (cbsExpandPollStep describe i = .done ↔
      st ≠ some ⟨CBS_STORAGE_STATUS_EXPANDING⟩)
    ∧ cbsStorageSizeUpdateBranch oldV newV resize describe wf rf =
      (.error e, true) := by
  have hstep : cbsExpandPollStep describe i =
      (match st with
        | some d =>
          if d.diskState = CBS_STORAGE_STATUS_EXPANDING then
            .retryable (.otherErr ("cbs storage status is " ++ d.diskState))
          else .done
        | none => .done) := by
    simp only [cbsExpandPollStep, hok]
    cases st <;> rfl
  refine ⟨?_, ?_, ?_⟩
  · rw [hstep]
    rcases st with _ | d
    · simp
    · rcases d with ⟨s⟩
      by_cases hs : s = CBS_STORAGE_STATUS_EXPANDING
      · subst hs
        simp
      · simp [hs]
  · rw [hstep]
    rcases st with _ | d
    · simp
    · rcases d with ⟨s⟩
      by_cases hs : s = CBS_STORAGE_STATUS_EXPANDING
      · subst hs
        simp
      · simp [hs]
  · have hns : ¬(oldV > newV) := by omega
    simp only [cbsStorageSizeUpdateBranch, if_neg hns, hresize, herr]

/-- Witness for **C3** at a concrete remote whose disk stays `EXPANDING`
(the poll times out and the update aborts with the retryable error). -/
theorem tc_c3_cbs_expand_poll_witness :
    ((fun _ : Nat =>
        (Except.ok (some ⟨CBS_STORAGE_STATUS_EXPANDING⟩) :
          Except GoErr (Option CbsDisk))) 0 =
        .ok (some ⟨CBS_STORAGE_STATUS_EXPANDING⟩)
      ∧ (2 : Int) ≤ 4
      ∧ runRetry (cbsResizeStep (fun _ => none)) 1 0 = none
      ∧ runRetry (cbsExpandPollStep (fun _ =>
          (Except.ok (some ⟨CBS_STORAGE_STATUS_EXPANDING⟩) :
            Except GoErr (Option CbsDisk)))) 2 0 =
          some (.otherErr ("cbs storage status is " ++
            CBS_STORAGE_STATUS_EXPANDING)))
    ∧ (((∃ msg, cbsExpandPollStep (fun _ =>
          (Except.ok (some ⟨CBS_STORAGE_STATUS_EXPANDING⟩) :
            Except GoErr (Option CbsDisk))) 0 = .retryable (.otherErr msg)) ↔
        (some ⟨CBS_STORAGE_STATUS_EXPANDING⟩ : Option CbsDisk) =
          some ⟨CBS_STORAGE_STATUS_EXPANDING⟩)
      ∧ (cbsExpandPollStep (fun _ =>
          (Except.ok (some ⟨CBS_STORAGE_STATUS_EXPANDING⟩) :
            Except GoErr (Option CbsDisk))) 0 = .done ↔
        (some ⟨CBS_STORAGE_STATUS_EXPANDING⟩ : Option CbsDisk) ≠
          some ⟨CBS_STORAGE_STATUS_EXPANDING⟩)
      ∧ cbsStorageSizeUpdateBranch 2 4 (fun _ => none)
          (fun _ => (Except.ok (some ⟨CBS_STORAGE_STATUS_EXPANDING⟩) :
            Except GoErr (Option CbsDisk))) 1 2 =
          (.error (.otherErr ("cbs storage status is " ++
            CBS_STORAGE_STATUS_EXPANDING)), true)) :=
  ⟨⟨rfl, by norm_num, rfl, rfl⟩,
    tc_c3_cbs_expand_poll
      (fun _ => (Except.ok (some ⟨CBS_STORAGE_STATUS_EXPANDING⟩) :
        Except GoErr (Option CbsDisk)))
      0 (some ⟨CBS_STORAGE_STATUS_EXPANDING⟩) (fun _ => none) 2 4 1 2
      (.otherErr ("cbs storage status is " ++ CBS_STORAGE_STATUS_EXPANDING))
      rfl (by norm_num) rfl rfl⟩

/-- **C5 (counterexample)** — The key-pair delete's `UnbindKeyPair` retry
callback, given an SDK failure whose code is `"InvalidParameter"` (neither
success nor `CVM_NOT_FOUND_ERROR`), classifies it as non-retryable via the
generic `retryError` classifier rather than retryable, contradicting "every
other error from those calls is classified as retryable". -/
theorem tc_c5_unbind_not_all_retryable_counterexample :
    keyPairUnbindStep (fun _ => some (.sdkErr "InvalidParameter" "bad")) 0 =
      .nonRetryable (.sdkErr "InvalidParameter" "bad") := by
  rfl

/-- **C5 (amended)** — The route-table-entry delete treats a `VPCNotFound`
SDK failure of `DeleteRoutes` as success and classifies *every* other
failure as retryable, surfacing the error to Terraform core at the retry
timeout; the key-pair delete treats a `CVM_NOT_FOUND_ERROR` SDK failure of
`UnbindKeyPair` as success but passes every other failure to the generic
`retryError` classifier, which retries only errors it deems recoverable and
returns the rest.  Each behaviour is stated against its own remote:
`del1` always fails with a non-`VPCNotFound` error (retried, then surfaced
at timeout), `del2` fails with `VPCNotFound` (success), `unbind1` fails
with `CVM_NOT_FOUND_ERROR` (success), `unbind2` fails with any other error
(handed to `retryError`). -/
theorem tc_c5_amended (del1 del2 unbind1 unbind2 : Nat → Option GoErr)
    (e e2 : GoErr) (i i2 j1 j2 fuel : Nat) (r r2 : String)
    (hde : del1 i = some e)
    (hne : ¬(e.isSdk = true ∧ e.code = VPCNotFound))
    (hall : ∀ j, ∃ e', del1 j = some e' ∧
      ¬(e'.isSdk = true ∧ e'.code = VPCNotFound))
    (hnf : del2 i2 = some (.sdkErr VPCNotFound r))
    (hcvm : unbind1 j1 = some (.sdkErr CVM_NOT_FOUND_ERROR r2))
    (hub : unbind2 j2 = some e2)
    (hub2 : ¬(e2.isSdk = true ∧ e2.code = CVM_NOT_FOUND_ERROR)) :
    routeEntryDeleteStep del1 i = .retryable e
    ∧ (runRetry (routeEntryDeleteStep del1) fuel 0).isSome
    ∧ routeEntryDeleteStep del2 i2 = .done
    ∧ keyPairUnbindStep unbind1 j1 = .done
    ∧ keyPairUnbindStep unbind2 j2 = retryError e2 [] := by
  refine ⟨?_, ?_, ?_, ?_, ?_⟩
  · simp [routeEntryDeleteStep, hde, hne]
  · refine runRetry_all_retryable (routeEntryDeleteStep del1) fuel 0 ?_
    intro j
    obtain ⟨e', he', hne'⟩ := hall j
    exact ⟨e', by simp [routeEntryDeleteStep, he', hne']⟩
  · simp [routeEntryDeleteStep, hnf, GoErr.isSdk, GoErr.code]
  · simp [keyPairUnbindStep, hcvm, GoErr.isSdk, GoErr.code]
  · simp [keyPairUnbindStep, hub, hub2]

/-- Witness for **C5 (amended)**: four concrete remotes, one per behaviour —
a persistent non-`VPCNotFound` failure (retried, surfaced at timeout), a
`VPCNotFound` failure (success), a `CVM_NOT_FOUND_ERROR` unbind failure
(success), and an `"InvalidParameter"` unbind failure (classified by
`retryError`). -/
theorem tc_c5_amended_witness :
    ((fun _ : Nat => (some (GoErr.otherErr "boom") : Option GoErr)) 0 =
        some (.otherErr "boom")
      ∧ ¬((GoErr.otherErr "boom").isSdk = true ∧
          (GoErr.otherErr "boom").code = VPCNotFound)
      ∧ (∀ j : Nat, ∃ e',
          (fun _ : Nat => (some (GoErr.otherErr "boom") : Option GoErr)) j =
            some e'
          ∧ ¬(e'.isSdk = true ∧ e'.code = VPCNotFound))
      ∧ (fun _ : Nat =>
          (some (GoErr.sdkErr VPCNotFound "gone") : Option GoErr)) 0 =
        some (.sdkErr VPCNotFound "gone")
      ∧ (fun _ : Nat =>
          (some (GoErr.sdkErr CVM_NOT_FOUND_ERROR "cvm gone") :
            Option GoErr)) 0 =
        some (.sdkErr CVM_NOT_FOUND_ERROR "cvm gone")
      ∧ (fun _ : Nat =>
          (some (GoErr.sdkErr "InvalidParameter" "bad") : Option GoErr)) 0 =
        some (.sdkErr "InvalidParameter" "bad")
      ∧ ¬((GoErr.sdkErr "InvalidParameter" "bad").isSdk = true ∧
          (GoErr.sdkErr "InvalidParameter" "bad").code = CVM_NOT_FOUND_ERROR))
    ∧ (routeEntryDeleteStep
        (fun _ => some (.otherErr "boom")) 0 = .retryable (.otherErr "boom")
      ∧ (runRetry (routeEntryDeleteStep
          (fun _ => some (.otherErr "boom"))) 3 0).isSome
      ∧ routeEntryDeleteStep
          (fun _ => some (.sdkErr VPCNotFound "gone")) 0 = .done
      ∧ keyPairUnbindStep
          (fun _ => some (.sdkErr CVM_NOT_FOUND_ERROR "cvm gone")) 0 = .done
      ∧ keyPairUnbindStep
          (fun _ => some (.sdkErr "InvalidParameter" "bad")) 0 =
        retryError (.sdkErr "InvalidParameter" "bad") []) :=
  ⟨⟨rfl, by decide, fun j => ⟨.otherErr "boom", rfl, by decide⟩,
      rfl, rfl, rfl, by decide⟩,
    tc_c5_amended (fun _ => some (.otherErr "boom"))
      (fun _ => some (.sdkErr VPCNotFound "gone"))
      (fun _ => some (.sdkErr CVM_NOT_FOUND_ERROR "cvm gone"))
      (fun _ => some (.sdkErr "InvalidParameter" "bad"))
      (.otherErr "boom") (.sdkErr "InvalidParameter" "bad")
      0 0 0 0 3 "gone" "cvm gone"
      rfl (by decide) (fun j => ⟨.otherErr "boom", rfl, by decide⟩)
      rfl rfl rfl (by decide)⟩

/-- **C4** — When the remote API reports the resource absent — the CBS
describe result is nil, the key pair describe result is nil, the Redis
instance is in `ISOLATE`/`TODELETE` status, or the Redis describe result set
is empty — the Read operation clears the local resource ID (sets it to `""`)
and returns `nil` rather than an error. -/
theorem tc_c4_read_absent_clears_id (storageId keyId redisId : String)
    (cbsDescribe : Nat → Except GoErr (Option CbsDisk))
    (kpDescribe : Nat → Except GoErr (Option CvmKeyPair))
    (redisRemote1 redisRemote2 :
      Nat → Nat → Except GoErr (List RedisInstanceSet))
    (inf : RedisInstanceSet) (fuelA fuelB fuelC fuelD : Nat)
    (rest1 rest2 : Option RedisInstanceSet → Except GoErr Unit)
    (hcbs : cbsDescribe 0 = .ok none)
    (hkp : kpDescribe 0 = .ok none)
    (hiso : redisRemote1 0 0 = .ok [inf])
    (hisoSt : inf.status = REDIS_STATUS_ISOLATE ∨
      inf.status = REDIS_STATUS_TODELETE)
    (hempty : redisRemote2 0 0 = .ok []) :
    resourceTencentCloudCbsStorageRead storageId cbsDescribe fuelA =
      (.ok (), "")
    ∧ resourceTencentCloudKeyPairRead keyId kpDescribe fuelB =
      (.ok (), "", none)
    ∧ resourceTencentCloudRedisInstanceRead redisId redisRemote1 fuelC rest1 =
      (.ok (), "")
    ∧ resourceTencentCloudRedisInstanceRead redisId redisRemote2 fuelD rest2 =
      (.ok (), "") := by
  refine ⟨?_, ?_, ?_, ?_⟩
  · have hstep : cbsReadStep cbsDescribe 0 = .ok none := by
      simp [cbsReadStep, hcbs]
    simp [resourceTencentCloudCbsStorageRead,
      runPoll_first_ok _ fuelA 0 _ hstep]
  · have hstep : keyPairDescribeStep kpDescribe 0 = .ok none := by
      simp [keyPairDescribeStep, hkp]
    simp [resourceTencentCloudKeyPairRead,
      runPoll_first_ok _ fuelB 0 _ hstep]
  · have hfetch : checkRedisFetch (redisRemote1 0) = .ok [inf] := by
      simp [checkRedisFetch, hiso]
    have hs2 : ¬inf.status = REDIS_STATUS_ONLINE := by
      rcases hisoSt with h | h <;>
        simp [h, REDIS_STATUS_ISOLATE, REDIS_STATUS_TODELETE,
          REDIS_STATUS_ONLINE]
    have hs01 : ¬(inf.status = REDIS_STATUS_INIT ∨
        inf.status = REDIS_STATUS_PROCESSING) := by
      rcases hisoSt with h | h <;>
        simp [h, REDIS_STATUS_ISOLATE, REDIS_STATUS_TODELETE,
          REDIS_STATUS_INIT, REDIS_STATUS_PROCESSING]
    have hchk : CheckRedisCreateOk (redisRemote1 0) =
        (true, false, some inf,
          some (.otherErr "redis instance delivery failure")) := by
      simp [CheckRedisCreateOk, hfetch, hs2, hs01]
    have hstep : redisReadStep redisRemote1 0 = .ok (false, some inf) := by
      simp [redisReadStep, hchk, hisoSt]
    simp [resourceTencentCloudRedisInstanceRead,
      runPoll_first_ok _ fuelC 0 _ hstep]
  · have hfetch : checkRedisFetch (redisRemote2 0) = .ok [] := by
      simp [checkRedisFetch, hempty]
    have hchk : CheckRedisCreateOk (redisRemote2 0) =
        (false, false, none, none) := by
      simp [CheckRedisCreateOk, hfetch]
    have hstep : redisReadStep redisRemote2 0 = .ok (false, none) := by
      simp [redisReadStep, hchk]
    simp [resourceTencentCloudRedisInstanceRead,
      runPoll_first_ok _ fuelD 0 _ hstep]

/-- Witness for **C4** at concrete remotes (disk gone, key pair gone, Redis
instance isolated, Redis instance absent). -/
theorem tc_c4_read_absent_clears_id_witness :
    ((fun _ : Nat => (Except.ok none : Except GoErr (Option CbsDisk))) 0 =
        .ok none
      ∧ (fun _ : Nat => (Except.ok none : Except GoErr (Option CvmKeyPair))) 0 =
        .ok none
      ∧ (fun _ _ : Nat =>
          (Except.ok [(⟨-2⟩ : RedisInstanceSet)] :
            Except GoErr (List RedisInstanceSet))) 0 0 = .ok [⟨-2⟩]
      ∧ ((⟨-2⟩ : RedisInstanceSet).status = REDIS_STATUS_ISOLATE ∨
          (⟨-2⟩ : RedisInstanceSet).status = REDIS_STATUS_TODELETE)
      ∧ (fun _ _ : Nat =>
          (Except.ok [] : Except GoErr (List RedisInstanceSet))) 0 0 = .ok [])
    ∧ (resourceTencentCloudCbsStorageRead "disk-1"
        (fun _ => .ok none) 3 = (.ok (), "")
      ∧ resourceTencentCloudKeyPairRead "skey-1"
        (fun _ => .ok none) 3 = (.ok (), "", none)
      ∧ resourceTencentCloudRedisInstanceRead "crs-1"
        (fun _ _ => .ok [⟨-2⟩]) 3 (fun _ => .ok ()) = (.ok (), "")
      ∧ resourceTencentCloudRedisInstanceRead "crs-1"
        (fun _ _ => .ok []) 3 (fun _ => .ok ()) = (.ok (), "")) :=
  ⟨⟨rfl, rfl, rfl, Or.inl rfl, rfl⟩,
    tc_c4_read_absent_clears_id "disk-1" "skey-1" "crs-1"
      (fun _ => .ok none) (fun _ => .ok none)
      (fun _ _ => .ok [⟨-2⟩]) (fun _ _ => .ok []) ⟨-2⟩ 3 3 3 3
      (fun _ => .ok ()) (fun _ => .ok ())
      rfl rfl rfl (Or.inl rfl) rfl⟩

/-- **C6** — The Redis instance Create sets the Terraform resource ID only
after `CheckRedisCreateOk` reports the instance present and online: a
non-empty ID implies the create succeeded and some poll attempt saw
`has = true`, `online = true` with no error; a poll error at the first
attempt, a missing instance at the first attempt, and a create task that is
still processing on every attempt (timeout) each make Create return an
error with the resource ID left unset (`""`). -/
theorem tc_c6_redis_create_poll (az region : List Char) (dealId : String)
    (poll : Nat → Nat → Except GoErr (List RedisInstanceSet)) (fuel : Nat)
    (hzone : ¬(az ≠ [] ∧ ¬(goContains az region = true)))
    (hdeal : dealId ≠ "") :
    (∀ res id,
      resourceTencentCloudRedisInstanceCreate az region (.ok dealId) poll
        fuel = (res, id) →
      id ≠ "" →
      res = .ok () ∧ id = dealId ∧
      ∃ j, (CheckRedisCreateOk (poll j)).1 = true
        ∧ (CheckRedisCreateOk (poll j)).2.1 = true
        ∧ (CheckRedisCreateOk (poll j)).2.2.2 = none)
    ∧ (∀ e, (CheckRedisCreateOk (poll 0)).2.2.2 = some e →
      resourceTencentCloudRedisInstanceCreate az region (.ok dealId) poll
        fuel = (.error e, ""))
    ∧ ((CheckRedisCreateOk (poll 0)).2.2.2 = none →
      (CheckRedisCreateOk (poll 0)).1 = false →
      resourceTencentCloudRedisInstanceCreate az region (.ok dealId) poll
        fuel = (.error (.otherErr "redis instance not exists."), ""))
    ∧ ((∀ j, (CheckRedisCreateOk (poll j)).2.2.2 = none
        ∧ (CheckRedisCreateOk (poll j)).1 = true
        ∧ (CheckRedisCreateOk (poll j)).2.1 = false) →
      resourceTencentCloudRedisInstanceCreate az region (.ok dealId) poll
        fuel = (.error (.otherErr "create redis task is processing"), "")) := by
  have hred : resourceTencentCloudRedisInstanceCreate az region (.ok dealId)
      poll fuel =
      (match runRetry (redisCreatePollStep poll) fuel 0 with
        | some e => (.error e, "")
        | none => (.ok (), dealId)) := by
    simp only [resourceTencentCloudRedisInstanceCreate, if_neg hzone,
      if_neg hdeal]
  refine ⟨?_, ?_, ?_, ?_⟩
  · intro res id hcreate hid
    rw [hred] at hcreate
    rcases hrun : runRetry (redisCreatePollStep poll) fuel 0 with _ | e
    · rw [hrun] at hcreate
      obtain ⟨hres, hide⟩ := Prod.mk.injEq .. ▸ hcreate
      refine ⟨hres.symm ▸ rfl, hide.symm ▸ rfl, ?_⟩
      obtain ⟨j, hj⟩ := runRetry_eq_none _ fuel 0 hrun
      refine ⟨j, ?_⟩
      rcases hq : CheckRedisCreateOk (poll j) with ⟨has, online, info, err⟩
      simp only [redisCreatePollStep, hq] at hj
      rcases err with _ | e'
      · rcases has with _ | _
        · simp at hj
        · rcases online with _ | _
          · simp at hj
          · simp
      · simp at hj
    · rw [hrun] at hcreate
      obtain ⟨_, hide⟩ := Prod.mk.injEq .. ▸ hcreate
      exact absurd hide.symm hid
  · intro e he
    rcases hq : CheckRedisCreateOk (poll 0) with ⟨has, online, info, err⟩
    rw [hq] at he
    simp only at he
    subst he
    have hstep : redisCreatePollStep poll 0 = .nonRetryable e := by
      simp [redisCreatePollStep, hq]
    rw [hred, runRetry_first_nonRetryable _ fuel 0 e hstep]
  · intro hnone hhas
    rcases hq : CheckRedisCreateOk (poll 0) with ⟨has, online, info, err⟩
    rw [hq] at hnone hhas
    simp only at hnone hhas
    subst hnone
    subst hhas
    have hstep : redisCreatePollStep poll 0 =
        .nonRetryable (.otherErr "redis instance not exists.") := by
      simp [redisCreatePollStep, hq]
    rw [hred, runRetry_first_nonRetryable _ fuel 0 _ hstep]
  · intro hall
    have hstep : ∀ j, redisCreatePollStep poll j =
        .retryable (.otherErr "create redis task is processing") := by
      intro j
      obtain ⟨h1, h2, h3⟩ := hall j
      rcases hq : CheckRedisCreateOk (poll j) with ⟨has, online, info, err⟩
      rw [hq] at h1 h2 h3
      simp only at h1 h2 h3
      subst h1
      subst h2
      subst h3
      simp [redisCreatePollStep, hq]
    rw [hred, runRetry_all_retryable_eq _ fuel 0 _ hstep]

/-- Witness for **C6**: zone check passed (empty zone), non-empty deal ID,
and a remote that reports the instance processing on every attempt — Create
times out with an error and the ID stays unset. -/
theorem tc_c6_redis_create_poll_witness :
    (¬(([] : List Char) ≠ [] ∧ ¬(goContains [] ['g', 'z'] = true))
      ∧ ("crs-77" : String) ≠ "")
    ∧ ((∀ (res : Except GoErr Unit) (id : String),
        resourceTencentCloudRedisInstanceCreate [] ['g', 'z'] (.ok "crs-77")
          (fun _ _ => Except.ok [⟨REDIS_STATUS_PROCESSING⟩]) 4 = (res, id) →
        id ≠ "" →
        res = .ok () ∧ id = "crs-77" ∧
        ∃ j, (CheckRedisCreateOk ((fun _ _ : Nat =>
            (Except.ok [(⟨REDIS_STATUS_PROCESSING⟩ : RedisInstanceSet)] :
              Except GoErr (List RedisInstanceSet))) j)).1 = true
          ∧ (CheckRedisCreateOk ((fun _ _ : Nat =>
            (Except.ok [(⟨REDIS_STATUS_PROCESSING⟩ : RedisInstanceSet)] :
              Except GoErr (List RedisInstanceSet))) j)).2.1 = true
          ∧ (CheckRedisCreateOk ((fun _ _ : Nat =>
            (Except.ok [(⟨REDIS_STATUS_PROCESSING⟩ : RedisInstanceSet)] :
              Except GoErr (List RedisInstanceSet))) j)).2.2.2 = none)
      ∧ (∀ e, (CheckRedisCreateOk ((fun _ _ : Nat =>
          (Except.ok [(⟨REDIS_STATUS_PROCESSING⟩ : RedisInstanceSet)] :
            Except GoErr (List RedisInstanceSet))) 0)).2.2.2 = some e →
        resourceTencentCloudRedisInstanceCreate [] ['g', 'z'] (.ok "crs-77")
          (fun _ _ => Except.ok [⟨REDIS_STATUS_PROCESSING⟩]) 4 =
          (.error e, ""))
      ∧ ((CheckRedisCreateOk ((fun _ _ : Nat =>
          (Except.ok [(⟨REDIS_STATUS_PROCESSING⟩ : RedisInstanceSet)] :
            Except GoErr (List RedisInstanceSet))) 0)).2.2.2 = none →
        (CheckRedisCreateOk ((fun _ _ : Nat =>
          (Except.ok [(⟨REDIS_STATUS_PROCESSING⟩ : RedisInstanceSet)] :
            Except GoErr (List RedisInstanceSet))) 0)).1 = false →
        resourceTencentCloudRedisInstanceCreate [] ['g', 'z'] (.ok "crs-77")
          (fun _ _ => Except.ok [⟨REDIS_STATUS_PROCESSING⟩]) 4 =
          (.error (.otherErr "redis instance not exists."), ""))
      ∧ ((∀ j, (CheckRedisCreateOk ((fun _ _ : Nat =>
            (Except.ok [(⟨REDIS_STATUS_PROCESSING⟩ : RedisInstanceSet)] :
              Except GoErr (List RedisInstanceSet))) j)).2.2.2 = none
          ∧ (CheckRedisCreateOk ((fun _ _ : Nat =>
            (Except.ok [(⟨REDIS_STATUS_PROCESSING⟩ : RedisInstanceSet)] :
              Except GoErr (List RedisInstanceSet))) j)).1 = true
          ∧ (CheckRedisCreateOk ((fun _ _ : Nat =>
            (Except.ok [(⟨REDIS_STATUS_PROCESSING⟩ : RedisInstanceSet)] :
              Except GoErr (List RedisInstanceSet))) j)).2.1 = false) →
        resourceTencentCloudRedisInstanceCreate [] ['g', 'z'] (.ok "crs-77")
          (fun _ _ => Except.ok [⟨REDIS_STATUS_PROCESSING⟩]) 4 =
          (.error (.otherErr "create redis task is processing"), ""))) :=
  ⟨⟨by simp, by decide⟩,
    tc_c6_redis_create_poll [] ['g', 'z'] "crs-77"
      (fun _ _ => Except.ok [⟨REDIS_STATUS_PROCESSING⟩]) 4
      (by simp) (by decide)⟩

/-- Every part produced by `goSplit` is free of the separator. -/
theorem goSplit_parts_no_sep (sep : Char) (s : List Char) :
    ∀ p ∈ goSplit sep s, sep ∉ p := by
  induction s with
  | nil =>
    intro p hp
    simp [goSplit] at hp
    simp [hp]
  | cons c rest ih =>
    rcases hr : goSplit sep rest with _ | ⟨p, ps⟩
    · exact absurd hr (goSplit_ne_nil sep rest)
    · have ih' : ∀ q ∈ p :: ps, sep ∉ q := hr ▸ ih
      intro q hq
      unfold goSplit at hq
      rw [hr] at hq
      by_cases hc : c = sep
      · simp only [hc, if_true, List.mem_cons] at hq
        rcases hq with rfl | hq
        · simp
        · exact ih' q (by simpa using hq)
      · simp only [hc, if_false, List.mem_cons] at hq
        rcases hq with rfl | hq
        · intro hmem
          rcases List.mem_cons.mp hmem with rfl | hmem
          · exact hc rfl
          · exact ih' p (List.mem_cons_self p ps) hmem
        · exact ih' q (List.mem_cons.mpr (Or.inr hq))

/-- The number of parts `goSplit` produces is the separator count plus 1. -/
theorem goSplit_length_eq_count (sep : Char) (s : List Char) :
    (goSplit sep s).length = s.count sep + 1 := by
  induction s with
  | nil => simp [goSplit]
  | cons c rest ih =>
    rcases hr : goSplit sep rest with _ | ⟨p, ps⟩
    · exact absurd hr (goSplit_ne_nil sep rest)
    · have hlen : (p :: ps).length = rest.count sep + 1 := hr ▸ ih
      unfold goSplit
      rw [hr]
      by_cases hc : c = sep
      · subst hc
        simp only [if_pos rfl, List.length_cons, List.count_cons,
          beq_self_eq_true, if_true]
        simp only [List.length_cons] at hlen
        omega
      · have hbeq : (c == sep) = false := by simp [hc]
        simp only [if_neg hc, List.length_cons, List.count_cons, hbeq]
        simp only [List.length_cons] at hlen
        simp only [Bool.false_eq_true, if_false]
        omega

/-- `goTrimSpace` is right-trimming after left-trimming. -/
theorem goTrimSpace_eq_rdropWhile (s : List Char) :
    goTrimSpace s = List.rdropWhile goIsSpace (s.dropWhile goIsSpace) := rfl

/-- A prefix of a list with no leading `p`-element has no leading
`p`-element either. -/
theorem dropWhile_eq_self_of_prefix {p : Char → Bool} {u l : List Char}
    (hu : List.IsPrefix u l) (hl : l.dropWhile p = l) :
    u.dropWhile p = u := by
  rcases u with _ | ⟨c, u'⟩
  · rfl
  · obtain ⟨r, hr⟩ := hu
    rw [← hr, List.cons_append] at hl
    by_cases hp : p c
    · exfalso
      have hlen := congrArg List.length hl
      simp only [List.dropWhile_cons, hp, if_true, List.length_cons] at hlen
      have hle : (List.dropWhile p (u' ++ r)).length ≤ (u' ++ r).length :=
        (List.dropWhile_sublist _).length_le
      omega
    · simp [List.dropWhile_cons, hp]

/-- `goTrimSpace` is idempotent. -/
theorem goTrimSpace_idem (s : List Char) :
    goTrimSpace (goTrimSpace s) = goTrimSpace s := by
  rw [goTrimSpace_eq_rdropWhile, goTrimSpace_eq_rdropWhile]
  have h1 : (s.dropWhile goIsSpace).dropWhile goIsSpace =
      s.dropWhile goIsSpace := List.dropWhile_idempotent _ _
  have h2 : (List.rdropWhile goIsSpace
      (s.dropWhile goIsSpace)).dropWhile goIsSpace =
      List.rdropWhile goIsSpace (s.dropWhile goIsSpace) :=
    dropWhile_eq_self_of_prefix (List.rdropWhile_prefix _ _) h1
  rw [h2, List.rdropWhile_idempotent]

/-- Trimming cannot increase the count of any character. -/
theorem count_goTrimSpace_le (s : List Char) (c : Char) :
    (goTrimSpace s).count c ≤ s.count c := by
  rw [goTrimSpace_eq_rdropWhile]
  have h1 : List.Sublist (List.rdropWhile goIsSpace (s.dropWhile goIsSpace))
      (s.dropWhile goIsSpace) := (List.rdropWhile_prefix _ _).sublist
  have h2 : List.Sublist (s.dropWhile goIsSpace) s :=
    List.dropWhile_sublist _
  exact (h1.trans h2).count_le c

/-- The two-field truncation leaves at most one space. -/
theorem count_space_keyPairReadPublicKey (v : List Char) :
    (keyPairReadPublicKey v).count ' ' ≤ 1 := by
  unfold keyPairReadPublicKey
  by_cases h : (goSplit ' ' v).length > 2
  · simp only [h, if_true]
    rcases hs : goSplit ' ' v with _ | ⟨f0, _ | ⟨f1, rest⟩⟩
    · exact absurd hs (goSplit_ne_nil _ _)
    · rw [hs] at h; simp at h
    · have hf0 : ' ' ∉ f0 :=
        goSplit_parts_no_sep ' ' v f0 (hs ▸ List.mem_cons_self _ _)
      have hf1 : ' ' ∉ f1 := by
        refine goSplit_parts_no_sep ' ' v f1 (hs ▸ ?_)
        exact List.mem_cons.mpr (Or.inr (List.mem_cons_self _ _))
      have htake : List.take 2 (f0 :: f1 :: rest) = [f0, f1] := by
        simp [List.take_succ_cons]
      have hjoin : goJoin ' ' [f0, f1] = f0 ++ ' ' :: f1 := by
        simp [goJoin]
      rw [htake, hjoin]
      have h0 : f0.count ' ' = 0 := List.count_eq_zero.mpr hf0
      have h1 : f1.count ' ' = 0 := List.count_eq_zero.mpr hf1
      simp [List.count_append, List.count_cons, h0, h1]
  · simp only [h, if_false]
    have := goSplit_length_eq_count ' ' v
    omega

/-- The key-pair `StateFunc` leaves at most one space in the stored key. -/
theorem count_space_keyPairStateFunc (v : List Char) :
    (keyPairPublicKeyStateFunc v).count ' ' ≤ 1 :=
  le_trans (count_goTrimSpace_le (keyPairReadPublicKey v) ' ')
    (count_space_keyPairReadPublicKey v)

/-- A key with at most one space is left unchanged by the truncation. -/
theorem keyPairReadPublicKey_of_count_le_one (w : List Char)
    (h : w.count ' ' ≤ 1) : keyPairReadPublicKey w = w := by
  unfold keyPairReadPublicKey
  have := goSplit_length_eq_count ' ' w
  have hn : ¬(goSplit ' ' w).length > 2 := by omega
  simp [hn]

/-- **C10** — The key-pair `public_key` normalisation is idempotent and
shared by state storage and Read: the schema `StateFunc` is exactly the
trim of the two-field truncation that Read applies to the API-returned key;
Read stores the truncated key; applying the `StateFunc` to an
already-normalised key returns it unchanged; and the stored key never has
more than two space-separated fields (no trailing comment field). -/
theorem tc_c10_keypair_pubkey_normalisation (v pk : List Char)
    (keyId : String) (assoc : List String)
    (describe : Nat → Except GoErr (Option CvmKeyPair)) (fuel : Nat)
    (hkp : describe 0 = .ok (some ⟨some pk, assoc⟩)) :
    keyPairPublicKeyStateFunc v = goTrimSpace (keyPairReadPublicKey v)
    ∧ resourceTencentCloudKeyPairRead keyId describe fuel =
      (.ok (), keyId, some (keyPairReadPublicKey pk))
    ∧ keyPairPublicKeyStateFunc (keyPairPublicKeyStateFunc v) =
      keyPairPublicKeyStateFunc v
    ∧ (goSplit ' ' (keyPairPublicKeyStateFunc v)).length ≤ 2 := by
  refine ⟨rfl, ?_, ?_, ?_⟩
  · have hstep : keyPairDescribeStep describe 0 = .ok (some ⟨some pk, assoc⟩) := by
      simp [keyPairDescribeStep, hkp]
    simp [resourceTencentCloudKeyPairRead,
      runPoll_first_ok _ fuel 0 _ hstep]
  · have hread : keyPairReadPublicKey (keyPairPublicKeyStateFunc v) =
        keyPairPublicKeyStateFunc v :=
      keyPairReadPublicKey_of_count_le_one _ (count_space_keyPairStateFunc v)
    calc keyPairPublicKeyStateFunc (keyPairPublicKeyStateFunc v)
        = goTrimSpace (keyPairReadPublicKey (keyPairPublicKeyStateFunc v)) :=
          rfl
      _ = goTrimSpace (keyPairPublicKeyStateFunc v) := by rw [hread]
      _ = goTrimSpace (goTrimSpace (keyPairReadPublicKey v)) := rfl
      _ = goTrimSpace (keyPairReadPublicKey v) := goTrimSpace_idem _
      _ = keyPairPublicKeyStateFunc v := rfl
  · rw [goSplit_length_eq_count]
    have := count_space_keyPairStateFunc v
    omega

/-- Witness for **C10** at a concrete key with a trailing comment field. -/
theorem tc_c10_keypair_pubkey_normalisation_witness :
    ((fun _ : Nat =>
        (Except.ok (some ⟨some ['s', 'h', ' ', 'A', 'B', ' ', 'c'], []⟩) :
          Except GoErr (Option CvmKeyPair))) 0 =
      .ok (some ⟨some ['s', 'h', ' ', 'A', 'B', ' ', 'c'], []⟩))
    ∧ (keyPairPublicKeyStateFunc ['s', 'h', ' ', 'A', 'B', ' ', 'c'] =
        goTrimSpace (keyPairReadPublicKey ['s', 'h', ' ', 'A', 'B', ' ', 'c'])
      ∧ resourceTencentCloudKeyPairRead "skey-1"
        (fun _ => .ok (some ⟨some ['s', 'h', ' ', 'A', 'B', ' ', 'c'], []⟩))
        3 =
        (.ok (), "skey-1",
          some (keyPairReadPublicKey ['s', 'h', ' ', 'A', 'B', ' ', 'c']))
      ∧ keyPairPublicKeyStateFunc (keyPairPublicKeyStateFunc
          ['s', 'h', ' ', 'A', 'B', ' ', 'c']) =
        keyPairPublicKeyStateFunc ['s', 'h', ' ', 'A', 'B', ' ', 'c']
      ∧ (goSplit ' ' (keyPairPublicKeyStateFunc
          ['s', 'h', ' ', 'A', 'B', ' ', 'c'])).length ≤ 2) :=
  ⟨rfl,
    tc_c10_keypair_pubkey_normalisation
      ['s', 'h', ' ', 'A', 'B', ' ', 'c']
      ['s', 'h', ' ', 'A', 'B', ' ', 'c'] "skey-1" []
      (fun _ => .ok (some ⟨some ['s', 'h', ' ', 'A', 'B', ' ', 'c'], []⟩))
      3 rfl⟩

/-- Cap invariant of the per-item fold: starting strictly below a positive
`needLimit`, the fold never exceeds `needLimit`, and stays strictly below it
unless it returned early. -/
theorem describeInstancesItems_length (zoneMap : List (Nat × String))
    (zoneId : Option Nat) (needLimit : Int) (items : List Nat) :
    ∀ (acc acc' : List String) (early : Bool),
    describeInstancesItems zoneMap zoneId needLimit items acc =
      .ok (acc', early) →
    0 < needLimit → (acc.length : Int) < needLimit →
    (acc'.length : Int) ≤ needLimit ∧
      (early = false → (acc'.length : Int) < needLimit) := by
  induction items with
  | nil =>
    intro acc acc' early h hpos hlt
    unfold describeInstancesItems at h
    simp only [Except.ok.injEq, Prod.mk.injEq] at h
    obtain ⟨rfl, rfl⟩ := h
    exact ⟨le_of_lt hlt, fun _ => hlt⟩
  | cons itemZone rest ih =>
    intro acc acc' early h hpos hlt
    unfold describeInstancesItems at h
    by_cases hskip : (zoneId.any fun z => itemZone != z) = true
    · rw [if_pos hskip] at h
      exact ih acc acc' early h hpos hlt
    · rw [if_neg hskip] at h
      rcases hfind : (zoneMap.find? (fun p => p.1 = itemZone)).map Prod.snd
        with _ | name
      · rw [hfind] at h
        simp at h
      · rw [hfind] at h
        simp only at h
        by_cases hfull : needLimit > 0 ∧
            ((acc ++ [name]).length : Int) ≥ needLimit
        · rw [if_pos hfull] at h
          simp only [Except.ok.injEq, Prod.mk.injEq] at h
          obtain ⟨rfl, rfl⟩ := h
          refine ⟨?_, by simp⟩
          simp only [List.length_append, List.length_singleton]
          push_cast
          omega
        · rw [if_neg hfull] at h
          refine ih (acc ++ [name]) acc' early h hpos ?_
          simp only [not_and, not_le] at hfull
          exact hfull hpos

/-- Zone-filter invariant of the per-item fold: with a zone filter `some z`
whose zone map resolves `z` to `zoneName`, every element the fold appends is
`zoneName`. -/
theorem describeInstancesItems_zone (zoneMap : List (Nat × String)) (z : Nat)
    (zoneName : String) (needLimit : Int) (items : List Nat)
    (hfind : (zoneMap.find? (fun p => p.1 = z)).map Prod.snd = some zoneName) :
    ∀ (acc acc' : List String) (early : Bool),
    describeInstancesItems zoneMap (some z) needLimit items acc =
      .ok (acc', early) →
    (∀ x ∈ acc, x = zoneName) → ∀ x ∈ acc', x = zoneName := by
  induction items with
  | nil =>
    intro acc acc' early h hacc
    unfold describeInstancesItems at h
    simp only [Except.ok.injEq, Prod.mk.injEq] at h
    obtain ⟨rfl, rfl⟩ := h
    exact hacc
  | cons itemZone rest ih =>
    intro acc acc' early h hacc
    unfold describeInstancesItems at h
    by_cases hskip : ((some z).any fun zz => itemZone != zz) = true
    · rw [if_pos hskip] at h
      exact ih acc acc' early h hacc
    · rw [if_neg hskip] at h
      have hz : itemZone = z := by
        simp only [Option.any_some, bne_iff_ne, ne_eq,
          Bool.not_eq_true] at hskip
        simpa using hskip
      subst hz
      rw [hfind] at h
      simp only at h
      have hacc' : ∀ x ∈ acc ++ [zoneName], x = zoneName := by
        intro x hx
        rcases List.mem_append.mp hx with hx | hx
        · exact hacc x hx
        · simpa using hx
      by_cases hfull : needLimit > 0 ∧
          ((acc ++ [zoneName]).length : Int) ≥ needLimit
      · rw [if_pos hfull] at h
        simp only [Except.ok.injEq, Prod.mk.injEq] at h
        obtain ⟨rfl, rfl⟩ := h
        exact hacc'
      · rw [if_neg hfull] at h
        exact ih (acc ++ [zoneName]) acc' early h hacc'

/-- Offsets requested by the pagination loop: starting at `offset` it
requests `offset, offset+2, offset+4, ...` — one page per iteration, the
offset advancing by the fixed page size 2 — and the number of pages is
bounded by the remaining count divided by the page size (plus the final
iteration). -/
theorem describeInstancesLoop_offsets (pages : Nat → RedisPage)
    (zoneMap : List (Nat × String)) (zoneId : Option Nat) (needLimit : Int) :
    ∀ (n : Nat) (left : Int), left.toNat ≤ n →
    ∀ (offset : Nat) (acc : List String),
    ∃ k, 1 ≤ k
      ∧ (describeInstancesLoop pages zoneMap zoneId needLimit offset left
          acc).2 = (List.range k).map (fun t => offset + 2 * t)
      ∧ k ≤ left.toNat / 2 + 1 := by
  intro n
  induction n with
  | zero =>
    intro left hle offset acc
    refine ⟨1, le_refl 1, ?_, by omega⟩
    have hneg : left - 2 < 0 := by omega
    rw [describeInstancesLoop]
    rcases describeInstancesItems zoneMap zoneId needLimit
        (pages offset).instanceSet acc with e | ⟨acc', early⟩
    · simp [List.range_succ]
    · cases early
      · simp [hneg, List.range_succ]
      · simp [List.range_succ]
  | succ n ih =>
    intro left hle offset acc
    rw [describeInstancesLoop]
    rcases describeInstancesItems zoneMap zoneId needLimit
        (pages offset).instanceSet acc with e | ⟨acc', early⟩
    · exact ⟨1, le_refl 1, by simp [List.range_succ], by omega⟩
    · cases early
      · by_cases hneg : left - 2 < 0
        · exact ⟨1, le_refl 1, by simp [hneg, List.range_succ], by omega⟩
        · obtain ⟨k, hk1, hk2, hk3⟩ :=
            ih (left - 2) (by omega) (offset + 2) acc'
          refine ⟨k + 1, by omega, ?_, by omega⟩
          simp only [Bool.false_eq_true, if_false, if_neg hneg]
          rcases hrec : describeInstancesLoop pages zoneMap zoneId needLimit
              (offset + 2) (left - 2) acc' with ⟨r, offs⟩
          simp only
          rw [hrec] at hk2
          simp only at hk2
          rw [hk2, List.range_succ_eq_map]
          simp only [List.map_cons, List.map_map, Nat.mul_zero, Nat.add_zero]
          refine congrArg (List.cons offset) ?_
          refine List.map_congr_left ?_
          intro a _
          simp [Function.comp]
          omega
      · exact ⟨1, le_refl 1, by simp [List.range_succ], by omega⟩

/-- Cap invariant of the pagination loop: starting strictly below a
positive `needLimit`, a successful result never exceeds `needLimit`. -/
theorem describeInstancesLoop_length (pages : Nat → RedisPage)
    (zoneMap : List (Nat × String)) (zoneId : Option Nat) (needLimit : Int) :
    ∀ (n : Nat) (left : Int), left.toNat ≤ n →
    ∀ (offset : Nat) (acc l : List String),
    (describeInstancesLoop pages zoneMap zoneId needLimit offset left
      acc).1 = .ok l →
    0 < needLimit → (acc.length : Int) < needLimit →
    (l.length : Int) ≤ needLimit := by
  intro n
  induction n with
  | zero =>
    intro left hle offset acc l h hpos hlt
    have hneg : left - 2 < 0 := by omega
    rw [describeInstancesLoop] at h
    rcases hitems : describeInstancesItems zoneMap zoneId needLimit
        (pages offset).instanceSet acc with e | ⟨acc', early⟩ <;>
      rw [hitems] at h
    · simp at h
    · have hbound := describeInstancesItems_length zoneMap zoneId needLimit
        (pages offset).instanceSet acc acc' early hitems hpos hlt
      cases early
      · simp only [Bool.false_eq_true, if_false, if_pos hneg,
          Except.ok.injEq] at h
        exact h ▸ hbound.1
      · simp only [if_true, Except.ok.injEq] at h
        exact h ▸ hbound.1
  | succ n ih =>
    intro left hle offset acc l h hpos hlt
    rw [describeInstancesLoop] at h
    rcases hitems : describeInstancesItems zoneMap zoneId needLimit
        (pages offset).instanceSet acc with e | ⟨acc', early⟩ <;>
      rw [hitems] at h
    · simp at h
    · have hbound := describeInstancesItems_length zoneMap zoneId needLimit
        (pages offset).instanceSet acc acc' early hitems hpos hlt
      cases early
      · by_cases hneg : left - 2 < 0
        · simp only [Bool.false_eq_true, if_false, if_pos hneg,
            Except.ok.injEq] at h
          exact h ▸ hbound.1
        · simp only [Bool.false_eq_true, if_false, if_neg hneg] at h
          rcases hrec : describeInstancesLoop pages zoneMap zoneId needLimit
              (offset + 2) (left - 2) acc' with ⟨r, offs⟩
          rw [hrec] at h
          simp only at h
          refine ih (left - 2) (by omega) (offset + 2) acc' l ?_ hpos
            (hbound.2 rfl)
          rw [hrec]
          exact h
      · simp only [if_true, Except.ok.injEq] at h
        exact h ▸ hbound.1

/-- Zone-filter invariant of the pagination loop: with a zone filter whose
map resolves `z` to `zoneName`, every element of a successful result beyond
the initial accumulator is `zoneName`. -/
theorem describeInstancesLoop_zone (pages : Nat → RedisPage)
    (zoneMap : List (Nat × String)) (z : Nat) (zoneName : String)
    (needLimit : Int)
    (hfind : (zoneMap.find? (fun p => p.1 = z)).map Prod.snd = some zoneName) :
    ∀ (n : Nat) (left : Int), left.toNat ≤ n →
    ∀ (offset : Nat) (acc l : List String),
    (describeInstancesLoop pages zoneMap (some z) needLimit offset left
      acc).1 = .ok l →
    (∀ x ∈ acc, x = zoneName) → ∀ x ∈ l, x = zoneName := by
  intro n
  induction n with
  | zero =>
    intro left hle offset acc l h hacc
    have hneg : left - 2 < 0 := by omega
    rw [describeInstancesLoop] at h
    rcases hitems : describeInstancesItems zoneMap (some z) needLimit
        (pages offset).instanceSet acc with e | ⟨acc', early⟩ <;>
      rw [hitems] at h
    · simp at h
    · have hall := describeInstancesItems_zone zoneMap z zoneName needLimit
        (pages offset).instanceSet hfind acc acc' early hitems hacc
      cases early
      · simp only [Bool.false_eq_true, if_false, if_pos hneg,
          Except.ok.injEq] at h
        exact h ▸ hall
      · simp only [if_true, Except.ok.injEq] at h
        exact h ▸ hall
  | succ n ih =>
    intro left hle offset acc l h hacc
    rw [describeInstancesLoop] at h
    rcases hitems : describeInstancesItems zoneMap (some z) needLimit
        (pages offset).instanceSet acc with e | ⟨acc', early⟩ <;>
      rw [hitems] at h
    · simp at h
    · have hall := describeInstancesItems_zone zoneMap z zoneName needLimit
        (pages offset).instanceSet hfind acc acc' early hitems hacc
      cases early
      · by_cases hneg : left - 2 < 0
        · simp only [Bool.false_eq_true, if_false, if_pos hneg,
            Except.ok.injEq] at h
          exact h ▸ hall
        · simp only [Bool.false_eq_true, if_false, if_neg hneg] at h
          rcases hrec : describeInstancesLoop pages zoneMap (some z) needLimit
              (offset + 2) (left - 2) acc' with ⟨r, offs⟩
          rw [hrec] at h
          simp only at h
          refine ih (left - 2) (by omega) (offset + 2) acc' l ?_ hall
          rw [hrec]
          exact h
      · simp only [if_true, Except.ok.injEq] at h
        exact h ▸ hall

/-- In a zone map with pairwise-distinct keys (a Go `map[int64]string`),
resolving a zone name to its ID (`getZoneId`) and that ID back to a name
(`getZoneName`) returns the original name. -/
theorem zoneMap_find_value_key (zoneMap : List (Nat × String))
    (zoneName : String) (z : Nat)
    (hkeys : zoneMap.Pairwise (fun a b => a.1 ≠ b.1))
    (hv : (zoneMap.find? (fun p => p.2 = zoneName)).map Prod.fst = some z) :
    (zoneMap.find? (fun p => p.1 = z)).map Prod.snd = some zoneName := by
  induction zoneMap with
  | nil => simp at hv
  | cons hd tl ih =>
    rw [List.pairwise_cons] at hkeys
    obtain ⟨hhd, htl⟩ := hkeys
    by_cases hv2 : hd.2 = zoneName
    · rw [List.find?_cons_of_pos _ (by simpa using hv2)] at hv
      simp only [Option.map_some'] at hv
      have hz : hd.1 = z := by simpa using hv
      rw [List.find?_cons_of_pos _ (by simpa using hz)]
      simpa using hv2
    · rw [List.find?_cons_of_neg _ (by simpa using hv2)] at hv
      by_cases hk : hd.1 = z
      · exfalso
        rcases hfv : tl.find? (fun p => p.2 = zoneName) with _ | pr
        · rw [hfv] at hv
          simp at hv
        · rw [hfv] at hv
          simp only [Option.map_some', Option.some.injEq] at hv
          have hmem := List.mem_of_find?_eq_some hfv
          exact (hhd pr hmem) (hk.trans hv.symm)
      · rw [List.find?_cons_of_neg _ (by simpa using hk)]
        exact ih htl hv

/-- **C7** — `RedisService.DescribeInstances` paginates with a fixed page
size of 2: the offsets requested are `0, 2, 4, ...` (the offset advances by
the page size on each request), the number of requests is bounded by the
remaining count derived from the first response's `TotalCount` (divided by
the page size, plus the final request), for `needLimit ≥ 1` a successful
call returns at most `needLimit` instances, and when a zone name was given
(and resolves in the zone map, whose keys are distinct as in a Go map)
every returned instance carries the requested zone. -/
theorem tc_c7_describe_instances_pagination (pages : Nat → RedisPage)
    (zoneMap : List (Nat × String)) (zoneName : String) (needLimit : Int)
    (res : Except GoErr (List String)) (offs : List Nat)
    (hkeys : zoneMap.Pairwise (fun a b => a.1 ≠ b.1))
    (hzone : zoneName = "" ∨
      ∃ z, (zoneMap.find? (fun p => p.2 = zoneName)).map Prod.fst = some z)
    (hlim : 1 ≤ needLimit)
    (hres : DescribeInstances pages zoneMap zoneName needLimit =
      (res, offs)) :
    (∃ k, 1 ≤ k ∧ offs = (List.range k).map (fun t => 2 * t)
      ∧ k ≤ (pages 0).totalCount.toNat / 2 + 1)
    ∧ (∀ l, res = .ok l → (l.length : Int) ≤ needLimit)
    ∧ (∀ l, res = .ok l → zoneName ≠ "" → ∀ x ∈ l, x = zoneName) := by
  by_cases hzn : zoneName = ""
  · have hloop : describeInstancesLoop pages zoneMap none needLimit 0
        (pages 0).totalCount [] = (res, offs) := by
      rw [DescribeInstances, if_pos hzn] at hres
      exact hres
    refine ⟨?_, ?_, ?_⟩
    · obtain ⟨k, h1, h2, h3⟩ := describeInstancesLoop_offsets pages zoneMap
        none needLimit ((pages 0).totalCount).toNat _ le_rfl 0 []
      rw [hloop] at h2
      refine ⟨k, h1, ?_, h3⟩
      rw [show offs = ((res, offs)).2 from rfl, h2]
      exact List.map_congr_left (fun a _ => by omega)
    · intro l hl
      refine describeInstancesLoop_length pages zoneMap none needLimit
        ((pages 0).totalCount).toNat _ le_rfl 0 [] l ?_ (by omega) ?_
      · rw [hloop]
        exact hl
      · simpa using hlim
    · intro l hl hne
      exact absurd hzn hne
  · have hzf : ∃ z,
        (zoneMap.find? (fun p => p.2 = zoneName)).map Prod.fst = some z := by
      rcases hzone with h | h
      · exact absurd h hzn
      · exact h
    obtain ⟨z, hz⟩ := hzf
    have hloop : describeInstancesLoop pages zoneMap (some z) needLimit 0
        (pages 0).totalCount [] = (res, offs) := by
      rw [DescribeInstances, if_neg hzn, hz] at hres
      exact hres
    refine ⟨?_, ?_, ?_⟩
    · obtain ⟨k, h1, h2, h3⟩ := describeInstancesLoop_offsets pages zoneMap
        (some z) needLimit ((pages 0).totalCount).toNat _ le_rfl 0 []
      rw [hloop] at h2
      refine ⟨k, h1, ?_, h3⟩
      rw [show offs = ((res, offs)).2 from rfl, h2]
      exact List.map_congr_left (fun a _ => by omega)
    · intro l hl
      refine describeInstancesLoop_length pages zoneMap (some z) needLimit
        ((pages 0).totalCount).toNat _ le_rfl 0 [] l ?_ (by omega) ?_
      · rw [hloop]
        exact hl
      · simpa using hlim
    · intro l hl _
      refine describeInstancesLoop_zone pages zoneMap z zoneName needLimit
        (zoneMap_find_value_key zoneMap zoneName z hkeys hz)
        ((pages 0).totalCount).toNat _ le_rfl 0 [] l ?_ (by simp)
      rw [hloop]
      exact hl

/-- Witness for **C7**: a two-page remote (`TotalCount = 3`, zone 9 named
`"gz-1"`), zone filter `"gz-1"`, `needLimit = 2`. -/
theorem tc_c7_describe_instances_pagination_witness :
    (([(9, "gz-1"), (8, "sh-2")] :
        List (Nat × String)).Pairwise (fun a b => a.1 ≠ b.1)
      ∧ (("gz-1" : String) = "" ∨
        ∃ z, (([(9, "gz-1"), (8, "sh-2")] :
          List (Nat × String)).find? (fun p => p.2 = "gz-1")).map Prod.fst =
            some z)
      ∧ (1 : Int) ≤ 2
      ∧ DescribeInstances
          (fun o => if o = 0 then ⟨3, [9, 8]⟩ else ⟨3, [9]⟩)
          [(9, "gz-1"), (8, "sh-2")] "gz-1" 2 =
        (.ok ["gz-1", "gz-1"], [0, 2]))
    ∧ ((∃ k, 1 ≤ k ∧ ([0, 2] : List Nat) =
          (List.range k).map (fun t => 2 * t)
        ∧ k ≤ ((fun o : Nat => if o = 0 then
            (⟨3, [9, 8]⟩ : RedisPage) else ⟨3, [9]⟩) 0).totalCount.toNat / 2
              + 1)
      ∧ (∀ l, (Except.ok ["gz-1", "gz-1"] :
          Except GoErr (List String)) = .ok l → (l.length : Int) ≤ 2)
      ∧ (∀ l, (Except.ok ["gz-1", "gz-1"] :
          Except GoErr (List String)) = .ok l → ("gz-1" : String) ≠ "" →
          ∀ x ∈ l, x = "gz-1")) :=
  ⟨⟨by decide, Or.inr ⟨9, by decide⟩, by norm_num, by
      rw [DescribeInstances]
      norm_num
      rw [describeInstancesLoop]
      norm_num [describeInstancesItems]
      rw [if_neg (by decide : ¬("gz-1" = ""))]
      rw [describeInstancesLoop]
      norm_num [describeInstancesItems]
      constructor <;>
        (rw [describeInstancesLoop]; norm_num [describeInstancesItems])⟩,
    tc_c7_describe_instances_pagination
      (fun o => if o = 0 then ⟨3, [9, 8]⟩ else ⟨3, [9]⟩)
      [(9, "gz-1"), (8, "sh-2")] "gz-1" 2
      (.ok ["gz-1", "gz-1"]) [0, 2]
      (by decide) (Or.inr ⟨9, by decide⟩) (by norm_num) (by
      rw [DescribeInstances]
      norm_num
      rw [describeInstancesLoop]
      norm_num [describeInstancesItems]
      rw [if_neg (by decide : ¬("gz-1" = ""))]
      rw [describeInstancesLoop]
      norm_num [describeInstancesItems]
      constructor <;>
        (rw [describeInstancesLoop]; norm_num [describeInstancesItems]))⟩
